import Mathlib

/-!
# tfr_control: the RobotInterface signal conversion layer

A shallow embedding of `src/tfr_control/src/robot_interface.cpp`.

Modelling conventions.

* A C++ `double` is an exact rational (`ℚ`): finite values, no rounding, no NaN or
  infinity.  The decimal literals of the source (`0.01`, `.9`, `0.8`, `1E-3`) are the
  rationals they denote.  The four conversion functions are given a second time, in
  `WithNaN`, on operands that may also be a NaN (`Double`); the two versions agree on
  finite operands.
* The unqualified `abs` of the source, applied to a `double`, is the floating-point
  absolute value, written `|x|`.
* `std::min` and `std::max` are `min` and `max`.
* The only division of the source, `d_v/d_t` in `drivebaseVelocityToPWM`, is consumed by
  one comparison only; that comparison is modelled by `absQuotientExceeds`, which also
  covers a zero divisor the way IEEE arithmetic decides it.
* `ros::Time::now()` is an input: each call site of the clock is a parameter (seconds).
* The arrays `position_values`, `velocity_values`, `effort_values` and `command_values`
  are only ever subscripted through a `Joint`, except for the integer loop of the
  simulated branch of `write`; they are maps from `Joint`.
-/

namespace tfr_control

/-! ## Conversion functions -/

/-- Deadband bang-bang, `RobotInterface::angleToPWM`. -/
def angleToPWM (desired actual : ℚ) : ℚ :=
  let angle_tolerance : ℚ := 1 / 100
  let difference : ℚ := desired - actual
  if |difference| > angle_tolerance then
    (if difference < 0 then -1 else 1)
  else
    0

/-- Twin actuator synchronisation, `RobotInterface::twinAngleToPWM`: the pair is
(left signal, right signal). -/
def twinAngleToPWM (desired actual_left actual_right : ℚ) : ℚ × ℚ :=
  let total_angle_tolerance : ℚ := 1 / 100
  let individual_angle_tolerance : ℚ := 1 / 100
  let scaling_factor : ℚ := 9 / 10
  let difference : ℚ := desired - (actual_left + actual_right) / 2
  if |difference| > total_angle_tolerance then
    let direction : ℤ := if difference < 0 then -1 else 1
    let delta : ℚ := actual_left - actual_right
    let cmd_left : ℚ := direction
    let cmd_right : ℚ := direction
    if |delta| > individual_angle_tolerance then
      if actual_left > actual_right then
        (cmd_left * scaling_factor, cmd_right)
      else
        (cmd_left, cmd_right * scaling_factor)
    else
      (cmd_left, cmd_right)
  else
    (0, 0)

/-- Scaled bang-bang for the turntable, `RobotInterface::turntableAngleToPWM`. -/
def turntableAngleToPWM (desired actual : ℚ) : ℚ :=
  let angle_tolerance : ℚ := 1 / 100
  let difference : ℚ := desired - actual
  if |difference| > angle_tolerance then
    (if difference < 0 then -(8 / 10) else 8 / 10)
  else
    0

/-- The test `abs(d_v/d_t) > max_a` of `drivebaseVelocityToPWM`.  For a nonzero divisor it
is the comparison of the quotient.  For `d_t = 0` the C++ quotient is an infinity when
`d_v` is not zero (the test succeeds) and a NaN when `d_v` is zero (every comparison with
a NaN fails). -/
def absQuotientExceeds (d_v d_t max_a : ℚ) : Bool :=
  if d_t = 0 then decide (d_v ≠ 0) else decide (|d_v / d_t| > max_a)

/-- Acceleration and velocity limited ramp, `RobotInterface::drivebaseVelocityToPWM`.
The elapsed time `d_t` stands for `(ros::Time::now() - last_update).toSec()`. -/
def drivebaseVelocityToPWM (v_1 v_0 d_t : ℚ) : ℚ :=
  let d_v : ℚ := v_1 - v_0
  let max_a : ℚ := 1
  let vel : ℚ :=
    if absQuotientExceeds d_v d_t max_a then
      (let max_a : ℚ := if d_v < 0 then -1 else max_a
       max_a * d_t - v_0)
    else
      v_1
  let max_vel : ℚ := 1
  let sign : ℤ := if vel < 0 then -1 else 1
  let magnitude : ℚ := min ((vel * sign) / max_vel) 1
  sign * magnitude

/-! ## Conversion functions on operands that may be a NaN -/

/-- A `double` that is either a NaN or a finite value, the latter an exact rational.
Infinities and rounding are left out. -/
inductive Double where
  | nan
  | val (q : ℚ)
  deriving DecidableEq, Repr

namespace Double

/-- The difference `a - b`; a NaN operand gives a NaN. -/
def sub (a b : Double) : Double :=
  match a, b with
  | val x, val y => val (x - y)
  | _, _ => nan

/-- The sum `a + b`; a NaN operand gives a NaN. -/
def add (a b : Double) : Double :=
  match a, b with
  | val x, val y => val (x + y)
  | _, _ => nan

/-- The product `a * b`; a NaN operand gives a NaN. -/
def mul (a b : Double) : Double :=
  match a, b with
  | val x, val y => val (x * y)
  | _, _ => nan

/-- The quotient `a / k` by a nonzero constant `k` of the source (`2` and `max_vel`). -/
def divConst (a : Double) (k : ℚ) : Double :=
  match a with
  | val x => val (x / k)
  | nan => nan

/-- The absolute value `abs(a)`; the absolute value of a NaN is a NaN. -/
def fabs (a : Double) : Double :=
  match a with
  | val x => val |x|
  | nan => nan

/-- The comparison `a < b`, false when an operand is a NaN. -/
def lt (a b : Double) : Bool :=
  match a, b with
  | val x, val y => decide (x < y)
  | _, _ => false

/-- The comparison `a > b`, false when an operand is a NaN. -/
def gt (a b : Double) : Bool :=
  lt b a

/-- The library function `std::min(a, b)`, which is `(b < a) ? b : a`. -/
def stdMin (a b : Double) : Double :=
  if lt b a then b else a

/-- The test `abs(d_v/d_t) > max_a`: as `absQuotientExceeds` on finite operands; with a NaN
operand the quotient is a NaN and the test fails. -/
def quotientExceeds (d_v d_t : Double) (max_a : ℚ) : Bool :=
  match d_v, d_t with
  | val x, val y => absQuotientExceeds x y max_a
  | _, _ => false

/-- The value is a number in [-1, 1]; a NaN is not. -/
def inUnit (a : Double) : Prop :=
  match a with
  | val x => -1 ≤ x ∧ x ≤ 1
  | nan => False

end Double

namespace WithNaN

/-- Deadband bang-bang, `RobotInterface::angleToPWM`, on operands that may be a NaN. -/
def angleToPWM (desired actual : Double) : Double :=
  let angle_tolerance : Double := Double.val (1 / 100)
  let difference : Double := Double.sub desired actual
  if Double.gt (Double.fabs difference) angle_tolerance then
    (if Double.lt difference (Double.val 0) then Double.val (-1) else Double.val 1)
  else
    Double.val 0

/-- Twin actuator synchronisation, `RobotInterface::twinAngleToPWM`, on operands that may
be a NaN. -/
def twinAngleToPWM (desired actual_left actual_right : Double) : Double × Double :=
  let total_angle_tolerance : Double := Double.val (1 / 100)
  let individual_angle_tolerance : Double := Double.val (1 / 100)
  let scaling_factor : Double := Double.val (9 / 10)
  let difference : Double :=
    Double.sub desired (Double.divConst (Double.add actual_left actual_right) 2)
  if Double.gt (Double.fabs difference) total_angle_tolerance then
    let direction : ℤ := if Double.lt difference (Double.val 0) then -1 else 1
    let delta : Double := Double.sub actual_left actual_right
    let cmd_left : Double := Double.val direction
    let cmd_right : Double := Double.val direction
    if Double.gt (Double.fabs delta) individual_angle_tolerance then
      if Double.gt actual_left actual_right then
        (Double.mul cmd_left scaling_factor, cmd_right)
      else
        (cmd_left, Double.mul cmd_right scaling_factor)
    else
      (cmd_left, cmd_right)
  else
    (Double.val 0, Double.val 0)

/-- Scaled bang-bang for the turntable, `RobotInterface::turntableAngleToPWM`, on operands
that may be a NaN. -/
def turntableAngleToPWM (desired actual : Double) : Double :=
  let angle_tolerance : Double := Double.val (1 / 100)
  let difference : Double := Double.sub desired actual
  if Double.gt (Double.fabs difference) angle_tolerance then
    (if Double.lt difference (Double.val 0) then Double.val (-(8 / 10)) else Double.val (8 / 10))
  else
    Double.val 0

/-- Acceleration and velocity limited ramp, `RobotInterface::drivebaseVelocityToPWM`, on
operands that may be a NaN. -/
def drivebaseVelocityToPWM (v_1 v_0 d_t : Double) : Double :=
  let d_v : Double := Double.sub v_1 v_0
  let max_a : ℚ := 1
  let vel : Double :=
    if Double.quotientExceeds d_v d_t max_a then
      (let max_a : ℚ := if Double.lt d_v (Double.val 0) then -1 else max_a
       Double.sub (Double.mul (Double.val max_a) d_t) v_0)
    else
      v_1
  let max_vel : ℚ := 1
  let sign : ℤ := if Double.lt vel (Double.val 0) then -1 else 1
  let magnitude : Double :=
    Double.stdMin (Double.divConst (Double.mul vel (Double.val sign)) max_vel) (Double.val 1)
  Double.mul (Double.val sign) magnitude

end WithNaN

/-! ## The interface state -/

/-- The logical joints, `enum class Joint`.  The enumerators are the ones
`robot_interface.cpp` names; the declaration itself is in `robot_interface.h`. -/
inductive Joint where
  | LEFT_TREAD
  | RIGHT_TREAD
  | BIN
  | TURNTABLE
  | LOWER_ARM
  | UPPER_ARM
  | SCOOP
  deriving DecidableEq, Repr

/-- The actuator channels, `PWMInterface::Address`, as `write` names them. -/
inductive Address where
  | TREAD_LEFT
  | TREAD_RIGHT
  | ARM_TURNTABLE
  | ARM_LOWER_LEFT
  | ARM_LOWER_RIGHT
  | ARM_UPPER
  | ARM_SCOOP
  | BIN_LEFT
  | BIN_RIGHT
  deriving DecidableEq, Repr

/-- The fields of a `tfr_msgs::ArduinoReading` that `read` and `write` use. -/
structure ArduinoReading where
  tread_left_vel : ℚ
  tread_right_vel : ℚ
  arm_turntable_pos : ℚ
  arm_lower_left_pos : ℚ
  arm_lower_right_pos : ℚ
  arm_upper_pos : ℚ
  arm_scoop_pos : ℚ
  bin_left_pos : ℚ
  bin_right_pos : ℚ
  deriving DecidableEq, Repr

/-- A default constructed `tfr_msgs::ArduinoReading`: every numeric field is zero. -/
def ArduinoReading.zero : ArduinoReading :=
  ⟨0, 0, 0, 0, 0, 0, 0, 0, 0⟩

/-- The data members of `RobotInterface` that `read`, `write`, `clearCommands` and
`isBinExtended` use.  `idx` is `static_cast<int>` on a `Joint` and `JOINT_COUNT` the array
size; both are fixed by `robot_interface.h` and are kept as components of the state, so
that every statement holds whatever numbering the header declares.  The limit arrays are the raw
pointers handed to the constructor, subscripted by integers. -/
structure RobotInterface where
  use_fake_values : Bool
  lower_limits : Nat → ℚ
  upper_limits : Nat → ℚ
  idx : Joint → Nat
  JOINT_COUNT : Nat
  latest_arduino : Option ArduinoReading
  position_values : Joint → ℚ
  velocity_values : Joint → ℚ
  effort_values : Joint → ℚ
  command_values : Joint → ℚ
  drivebase_v0 : ℚ × ℚ
  last_update : ℚ

namespace RobotInterface

/-- Assignment `position_values[static_cast<int>(j)] = v`. -/
def setPosition (s : RobotInterface) (j : Joint) (v : ℚ) : RobotInterface :=
  { s with position_values := Function.update s.position_values j v }

/-- Assignment `velocity_values[static_cast<int>(j)] = v`. -/
def setVelocity (s : RobotInterface) (j : Joint) (v : ℚ) : RobotInterface :=
  { s with velocity_values := Function.update s.velocity_values j v }

/-- Assignment `effort_values[static_cast<int>(j)] = v`. -/
def setEffort (s : RobotInterface) (j : Joint) (v : ℚ) : RobotInterface :=
  { s with effort_values := Function.update s.effort_values j v }

/-- Assignment `command_values[static_cast<int>(j)] = v`. -/
def setCommand (s : RobotInterface) (j : Joint) (v : ℚ) : RobotInterface :=
  { s with command_values := Function.update s.command_values j v }

/-- The local `reading` of `read` and `write`: the latest sample, or a default
constructed one when `latest_arduino` is null. -/
def reading (s : RobotInterface) : ArduinoReading :=
  match s.latest_arduino with
  | some r => r
  | none => ArduinoReading.zero

/-- State projection, `RobotInterface::read`. -/
def read (s : RobotInterface) : RobotInterface :=
  let reading := s.reading
  -- LEFT_TREAD
  let s := s.setPosition Joint.LEFT_TREAD 0
  let s := s.setVelocity Joint.LEFT_TREAD reading.tread_left_vel
  let s := s.setEffort Joint.LEFT_TREAD 0
  -- RIGHT_TREAD
  let s := s.setPosition Joint.RIGHT_TREAD 0
  let s := s.setVelocity Joint.RIGHT_TREAD reading.tread_right_vel
  let s := s.setEffort Joint.RIGHT_TREAD 0
  let s :=
    if !s.use_fake_values then
      -- TURNTABLE
      let s := s.setPosition Joint.TURNTABLE reading.arm_turntable_pos
      let s := s.setVelocity Joint.TURNTABLE 0
      let s := s.setEffort Joint.TURNTABLE 0
      -- LOWER_ARM
      let s := s.setPosition Joint.LOWER_ARM
        ((reading.arm_lower_left_pos + reading.arm_lower_right_pos) / 2)
      let s := s.setVelocity Joint.LOWER_ARM 0
      let s := s.setEffort Joint.LOWER_ARM 0
      -- UPPER_ARM
      let s := s.setPosition Joint.UPPER_ARM reading.arm_upper_pos
      let s := s.setVelocity Joint.UPPER_ARM 0
      let s := s.setEffort Joint.UPPER_ARM 0
      -- SCOOP
      let s := s.setPosition Joint.SCOOP reading.arm_scoop_pos
      let s := s.setVelocity Joint.SCOOP 0
      s.setEffort Joint.SCOOP 0
    else
      s
  -- BIN
  let s := s.setPosition Joint.BIN ((reading.bin_left_pos + reading.bin_right_pos) / 2)
  let s := s.setVelocity Joint.BIN 0
  s.setEffort Joint.BIN 0

/-- One iteration of the loop of the simulated branch of `write`, for the integer `i`:
`position_values[i] = command_values[i]`, then the clamp when the joint has limits.  The
cell `position_values[i]` is the cell of the joints `j` with `idx j = i`. -/
def fakeStep (s : RobotInterface) (i : Nat) : RobotInterface :=
  { s with position_values := fun j =>
      if s.idx j = i then
        (let p : ℚ := s.command_values j
         if |s.lower_limits i| ≥ 1 / 1000 ∨ |s.upper_limits i| ≥ 1 / 1000 then
           max (min p (s.upper_limits i)) (s.lower_limits i)
         else
           p)
      else
        s.position_values j }

/-- The loop `for (int i = 3; i < JOINT_COUNT; i++)` of the simulated branch of `write`. -/
def fakeLoop (s : RobotInterface) : RobotInterface :=
  (List.range' 3 (s.JOINT_COUNT - 3)).foldl fakeStep s

/-- The calls `pwm.set(address, signal)` of the arm branch of `write`, in order. -/
def armSignals (s : RobotInterface) : List (Address × ℚ) :=
  let reading := s.reading
  -- TURNTABLE
  let signal := turntableAngleToPWM (s.command_values Joint.TURNTABLE)
    (s.position_values Joint.TURNTABLE)
  let out := [(Address.ARM_TURNTABLE, signal)]
  -- LOWER_ARM
  let twin_signal := twinAngleToPWM (s.command_values Joint.LOWER_ARM)
    reading.arm_lower_left_pos reading.arm_lower_right_pos
  let out := out ++ [(Address.ARM_LOWER_LEFT, twin_signal.1)]
  let out := out ++ [(Address.ARM_LOWER_RIGHT, twin_signal.2)]
  -- UPPER_ARM
  let signal := angleToPWM (s.command_values Joint.UPPER_ARM)
    (s.position_values Joint.UPPER_ARM)
  let out := out ++ [(Address.ARM_UPPER, signal)]
  -- SCOOP
  let signal := angleToPWM (s.command_values Joint.SCOOP) (s.position_values Joint.SCOOP)
  out ++ [(Address.ARM_SCOOP, signal)]

/-- Signal conversion and dispatch, `RobotInterface::write`.  The three clock readings
are those of the left tread conversion, of the right tread conversion and of the upkeep.
The result is the new state and the calls `pwm.set(address, signal)` in order. -/
def write (s : RobotInterface) (t_left t_right t_upkeep : ℚ) :
    RobotInterface × List (Address × ℚ) :=
  let reading := s.reading
  let (s, out) :=
    if s.use_fake_values then
      (s.fakeLoop, ([] : List (Address × ℚ)))
    else
      (s, s.armSignals)
  -- LEFT_TREAD
  let signal := drivebaseVelocityToPWM (s.command_values Joint.LEFT_TREAD)
    s.drivebase_v0.1 (t_left - s.last_update)
  let out := out ++ [(Address.TREAD_LEFT, signal)]
  -- RIGHT_TREAD
  let signal := drivebaseVelocityToPWM (s.command_values Joint.RIGHT_TREAD)
    s.drivebase_v0.2 (t_right - s.last_update)
  let out := out ++ [(Address.TREAD_RIGHT, signal)]
  -- BIN
  let twin_signal := twinAngleToPWM (s.command_values Joint.BIN)
    reading.bin_left_pos reading.bin_left_pos
  let out := out ++ [(Address.BIN_LEFT, twin_signal.1)]
  let out := out ++ [(Address.BIN_RIGHT, twin_signal.2)]
  -- UPKEEP
  let s := { s with last_update := t_upkeep }
  let s := { s with drivebase_v0 := (s.velocity_values Joint.LEFT_TREAD, s.drivebase_v0.2) }
  let s := { s with drivebase_v0 := (s.drivebase_v0.1, s.velocity_values Joint.RIGHT_TREAD) }
  (s, out)

/-- Command reset, `RobotInterface::clearCommands`. -/
def clearCommands (s : RobotInterface) : RobotInterface :=
  -- LEFT_TREAD
  let s := s.setCommand Joint.LEFT_TREAD 0
  -- RIGHT_TREAD
  let s := s.setCommand Joint.RIGHT_TREAD 0
  -- TURNTABLE
  let s := s.setCommand Joint.TURNTABLE (s.position_values Joint.TURNTABLE)
  -- LOWER_ARM
  let s := s.setCommand Joint.LOWER_ARM (s.position_values Joint.LOWER_ARM)
  -- UPPER_ARM
  let s := s.setCommand Joint.UPPER_ARM (s.position_values Joint.UPPER_ARM)
  -- SCOOP
  let s := s.setCommand Joint.SCOOP (s.position_values Joint.SCOOP)
  -- BIN
  s.setCommand Joint.BIN (s.position_values Joint.BIN)

/-- Extension query, `RobotInterface::isBinExtended`. -/
def isBinExtended (s : RobotInterface) : Bool :=
  let goal : ℚ := 785398 / 1000000
  let tolerance : ℚ := 1 / 100
  decide (goal - s.position_values Joint.BIN < tolerance)

end RobotInterface

/-- The signal of the last call `pwm.set(a, _)` in a list of calls, if there is one. -/
def signalAt (out : List (Address × ℚ)) (a : Address) : Option ℚ :=
  (out.reverse.find? (fun c => decide (c.1 = a))).map Prod.snd

/-- A telemetry sample with an unbalanced lower arm and an unbalanced bin, for concrete
instances of the statements below. -/
def sampleReading : ArduinoReading :=
  { tread_left_vel := 1 / 2, tread_right_vel := -(1 / 4), arm_turntable_pos := 3 / 10,
    arm_lower_left_pos := 1 / 5, arm_lower_right_pos := 2 / 5, arm_upper_pos := 7 / 10,
    arm_scoop_pos := -(1 / 10), bin_left_pos := 1 / 10, bin_right_pos := 3 / 5 }

/-- A state on real hardware that has received `sampleReading`, with stale joint state
and commands, for concrete instances of the statements below.  The numbering of the
joints is the order in which the constructor registers them. -/
def sampleInterface : RobotInterface :=
  { use_fake_values := false
    lower_limits := fun _ => 0
    upper_limits := fun i => if i = 5 then 3 / 2 else 0
    idx := fun j =>
      match j with
      | Joint.LEFT_TREAD => 0
      | Joint.RIGHT_TREAD => 1
      | Joint.BIN => 2
      | Joint.TURNTABLE => 3
      | Joint.LOWER_ARM => 4
      | Joint.UPPER_ARM => 5
      | Joint.SCOOP => 6
    JOINT_COUNT := 7
    latest_arduino := some sampleReading
    position_values := fun _ => 5
    velocity_values := fun _ => 6
    effort_values := fun _ => 7
    command_values := fun _ => 2
    drivebase_v0 := (0, 0)
    last_update := 0 }

/-- The value the body of the simulated loop of `write` leaves in the position cell of
joint `j`, whose integer index is `idx j`: the command, clamped by `std::max(std::min(..))`
when one of the two limits at that index has magnitude at least `1E-3`. -/
def fakePosition (s : RobotInterface) (j : Joint) : ℚ :=
  if |s.lower_limits (s.idx j)| ≥ 1 / 1000 ∨ |s.upper_limits (s.idx j)| ≥ 1 / 1000 then
    max (min (s.command_values j) (s.upper_limits (s.idx j))) (s.lower_limits (s.idx j))
  else
    s.command_values j

/-- Modelled from the spec: the numbering of the joints, declared by `enum class Joint` in
`robot_interface.h`, which is not among the sources.  The spec lists the seven variants
in the order LeftTread, RightTread, Turntable, LowerArm, UpperArm, Scoop, Bin. -/
def specOrder (j : Joint) : Nat :=
  match j with
  | Joint.LEFT_TREAD => 0
  | Joint.RIGHT_TREAD => 1
  | Joint.TURNTABLE => 2
  | Joint.LOWER_ARM => 3
  | Joint.UPPER_ARM => 4
  | Joint.SCOOP => 5
  | Joint.BIN => 6

/-- The state `sampleInterface` on simulated hardware: the upper arm, index 5, is
commanded to 2 and has the limits (0, 1.5); the other joints have no limits. -/
def sampleFake : RobotInterface :=
  { sampleInterface with use_fake_values := true }

/-- The numbering of the joints that the source points to.  `enum class Joint` is declared
in `robot_interface.h`, which is not among the sources; the constructor registers the
joints in this order (left tread, right tread, bin, turntable, lower arm, upper arm,
scoop), and in simulated mode `read` leaves to the loop of `write`, which starts at
index 3, exactly the four joints that this order numbers 3 to 6. -/
def constructorOrder (j : Joint) : Nat :=
  match j with
  | Joint.LEFT_TREAD => 0
  | Joint.RIGHT_TREAD => 1
  | Joint.BIN => 2
  | Joint.TURNTABLE => 3
  | Joint.LOWER_ARM => 4
  | Joint.UPPER_ARM => 5
  | Joint.SCOOP => 6

/-- The four calls `pwm.set` that `write` makes in both modes, from a state `s`: the two
tread signals and the two bin signals. -/
def treadBinSignals (s : RobotInterface) (t_left t_right : ℚ) : List (Address × ℚ) :=
  [(Address.TREAD_LEFT,
      drivebaseVelocityToPWM (s.command_values Joint.LEFT_TREAD) s.drivebase_v0.1
        (t_left - s.last_update)),
    (Address.TREAD_RIGHT,
      drivebaseVelocityToPWM (s.command_values Joint.RIGHT_TREAD) s.drivebase_v0.2
        (t_right - s.last_update)),
    (Address.BIN_LEFT,
      (twinAngleToPWM (s.command_values Joint.BIN) s.reading.bin_left_pos
        s.reading.bin_left_pos).1),
    (Address.BIN_RIGHT,
      (twinAngleToPWM (s.command_values Joint.BIN) s.reading.bin_left_pos
        s.reading.bin_left_pos).2)]

/-- The state `sampleInterface` before any telemetry has arrived (`latest_arduino` is
null), with all commands 0. -/
def sampleNoTelemetry : RobotInterface :=
  { sampleInterface with latest_arduino := none, command_values := fun _ => 0 }

/-! ## Theorems -/

/-- C1: inside the deadband, `|desired - actual| ≤ 0.01`, `angleToPWM` returns exactly 0. -/
theorem angleToPWM_deadband (desired actual : ℚ)
    (h : |desired - actual| ≤ 1 / 100) : angleToPWM desired actual = 0 := by
  unfold angleToPWM
  simp only [gt_iff_lt]
  rw [if_neg (not_lt.mpr h)]

/-- Witness of C1 at desired = 1, actual = 0.995. -/
theorem angleToPWM_deadband_witness :
    |(1 : ℚ) - 199 / 200| ≤ 1 / 100 ∧ angleToPWM 1 (199 / 200) = 0 :=
  ⟨by norm_num [abs_le], angleToPWM_deadband 1 (199 / 200) (by norm_num [abs_le])⟩

/-- C2: outside the deadband, `|desired - actual| > 0.01`, `angleToPWM` returns +1 when
`desired > actual` and -1 when `desired < actual`, that is the sign of
`desired - actual`. -/
theorem angleToPWM_outside_deadband (desired actual : ℚ)
    (h : |desired - actual| > 1 / 100) :
    (desired > actual → angleToPWM desired actual = 1) ∧
    (desired < actual → angleToPWM desired actual = -1) ∧
    angleToPWM desired actual = ((SignType.sign (desired - actual) : SignType) : ℚ) := by
  unfold angleToPWM
  simp only [gt_iff_lt] at h ⊢
  rw [if_pos h]
  have hne : desired - actual ≠ 0 := by
    intro h0
    rw [h0, abs_zero] at h
    norm_num at h
  refine ⟨fun hgt => ?_, fun hlt => ?_, ?_⟩
  · rw [if_neg (not_lt.mpr (sub_nonneg.mpr hgt.le))]
  · rw [if_pos (sub_neg.mpr hlt)]
  · rcases lt_or_gt_of_ne hne with hneg | hpos
    · rw [if_pos hneg, sign_neg hneg]
      simp
    · rw [if_neg (not_lt.mpr hpos.le), sign_pos hpos]
      simp

/-- Witness of C2 at desired = 1, actual = 0. -/
theorem angleToPWM_outside_deadband_witness :
    |(1 : ℚ) - 0| > 1 / 100 ∧
    ((1 : ℚ) > 0 → angleToPWM 1 0 = 1) ∧
    ((1 : ℚ) < 0 → angleToPWM 1 0 = -1) ∧
    angleToPWM 1 0 = ((SignType.sign ((1 : ℚ) - 0) : SignType) : ℚ) :=
  ⟨by norm_num, angleToPWM_outside_deadband 1 0 (by norm_num)⟩

/-- C3: for every desired and actual, `turntableAngleToPWM` is 0.8 times `angleToPWM`:
same deadband, same sign, magnitude 0.8 instead of 1. -/
theorem turntableAngleToPWM_eq_scaled_angleToPWM (desired actual : ℚ) :
    turntableAngleToPWM desired actual = 8 / 10 * angleToPWM desired actual := by
  unfold turntableAngleToPWM angleToPWM
  simp only
  split_ifs <;> norm_num

/-- C4: when `|desired - (actual_left + actual_right)/2| ≤ 0.01`, `twinAngleToPWM` returns
exactly (0, 0), whatever the two readings are. -/
theorem twinAngleToPWM_deadband (desired actual_left actual_right : ℚ)
    (h : |desired - (actual_left + actual_right) / 2| ≤ 1 / 100) :
    twinAngleToPWM desired actual_left actual_right = (0, 0) := by
  unfold twinAngleToPWM
  simp only [gt_iff_lt]
  rw [if_neg (not_lt.mpr h)]

/-- Witness of C4 with a spread of 2 between the two readings. -/
theorem twinAngleToPWM_deadband_witness :
    |(1 : ℚ) - (0 + 2) / 2| ≤ 1 / 100 ∧ twinAngleToPWM 1 0 2 = (0, 0) :=
  ⟨by norm_num, twinAngleToPWM_deadband 1 0 2 (by norm_num)⟩

/-- C5: when the total deadband is exceeded and the spread `|actual_left - actual_right|`
exceeds 0.01, the actuator with the larger reading gets `0.9 * d` and the other gets `d`,
where `d`, the sign of `desired - mean`, is +1 or -1; both outputs have the same sign and
the magnitude of the larger-reading actuator is 0.9 times the magnitude of the other. -/
theorem twinAngleToPWM_unbalanced (desired actual_left actual_right : ℚ)
    (h1 : |desired - (actual_left + actual_right) / 2| > 1 / 100)
    (h2 : |actual_left - actual_right| > 1 / 100) :
    (((SignType.sign (desired - (actual_left + actual_right) / 2) : SignType) : ℚ) = 1 ∨
      ((SignType.sign (desired - (actual_left + actual_right) / 2) : SignType) : ℚ) = -1) ∧
    (actual_left > actual_right →
      twinAngleToPWM desired actual_left actual_right =
        (9 / 10 * ((SignType.sign (desired - (actual_left + actual_right) / 2) : SignType) : ℚ),
          ((SignType.sign (desired - (actual_left + actual_right) / 2) : SignType) : ℚ))) ∧
    (actual_right > actual_left →
      twinAngleToPWM desired actual_left actual_right =
        (((SignType.sign (desired - (actual_left + actual_right) / 2) : SignType) : ℚ),
          9 / 10 * ((SignType.sign (desired - (actual_left + actual_right) / 2) : SignType) : ℚ))) ∧
    0 < (twinAngleToPWM desired actual_left actual_right).1 *
          (twinAngleToPWM desired actual_left actual_right).2 ∧
    (actual_left > actual_right →
      |(twinAngleToPWM desired actual_left actual_right).1| =
        9 / 10 * |(twinAngleToPWM desired actual_left actual_right).2|) ∧
    (actual_right > actual_left →
      |(twinAngleToPWM desired actual_left actual_right).2| =
        9 / 10 * |(twinAngleToPWM desired actual_left actual_right).1|) := by
  have hne : desired - (actual_left + actual_right) / 2 ≠ 0 := by
    intro h0
    rw [h0, abs_zero] at h1
    norm_num at h1
  have hlr : actual_left ≠ actual_right := by
    intro h0
    rw [h0, sub_self, abs_zero] at h2
    norm_num at h2
  unfold twinAngleToPWM
  simp only [gt_iff_lt] at h1 h2 ⊢
  rw [if_pos h1, if_pos h2]
  rcases lt_or_gt_of_ne hne with hneg | hpos
  · rw [if_pos hneg, sign_neg hneg]
    rcases lt_or_gt_of_ne hlr with hlt | hgt
    · rw [if_neg (not_lt.mpr hlt.le)]
      refine ⟨by simp, fun h => absurd h (not_lt.mpr hlt.le), fun _ => by simp,
        by norm_num, fun h => absurd h (not_lt.mpr hlt.le), fun _ => by norm_num [abs_of_pos]⟩
    · rw [if_pos hgt]
      refine ⟨by simp, fun _ => by simp [mul_comm], fun h => absurd h (not_lt.mpr hgt.le),
        by norm_num, fun _ => by norm_num [abs_of_pos], fun h => absurd h (not_lt.mpr hgt.le)⟩
  · rw [if_neg (not_lt.mpr hpos.le), sign_pos hpos]
    rcases lt_or_gt_of_ne hlr with hlt | hgt
    · rw [if_neg (not_lt.mpr hlt.le)]
      refine ⟨by simp, fun h => absurd h (not_lt.mpr hlt.le), fun _ => by simp,
        by norm_num, fun h => absurd h (not_lt.mpr hlt.le), fun _ => by norm_num [abs_of_pos]⟩
    · rw [if_pos hgt]
      refine ⟨by simp, fun _ => by simp, fun h => absurd h (not_lt.mpr hgt.le),
        by norm_num, fun _ => by norm_num [abs_of_pos], fun h => absurd h (not_lt.mpr hgt.le)⟩

/-- Witness of C5 at desired = 1, left = 0.5, right = 0: the two outputs share a sign. -/
theorem twinAngleToPWM_unbalanced_witness :
    |(1 : ℚ) - (1 / 2 + 0) / 2| > 1 / 100 ∧ |(1 / 2 : ℚ) - 0| > 1 / 100 ∧
    0 < (twinAngleToPWM 1 (1 / 2) 0).1 * (twinAngleToPWM 1 (1 / 2) 0).2 :=
  ⟨by norm_num [lt_abs], by norm_num [lt_abs],
    (twinAngleToPWM_unbalanced 1 (1 / 2) 0 (by norm_num [lt_abs])
      (by norm_num [lt_abs])).2.2.2.1⟩

/-- C6: for `dt > 0` and `|v_1 - v_0| / dt ≤ 1`, `drivebaseVelocityToPWM` returns
`sign(v_1) * min(|v_1|, 1)`: the magnitude of the target clamped to at most 1, with the
sign of the target (and 0 for target 0). -/
theorem drivebaseVelocityToPWM_within_accel (v_1 v_0 d_t : ℚ)
    (hdt : 0 < d_t) (h : |v_1 - v_0| / d_t ≤ 1) :
    drivebaseVelocityToPWM v_1 v_0 d_t =
      ((SignType.sign v_1 : SignType) : ℚ) * min |v_1| 1 := by
  have hq : ¬ (1 < |(v_1 - v_0) / d_t|) := by
    rw [abs_div, abs_of_pos hdt]
    exact not_lt.mpr h
  unfold drivebaseVelocityToPWM absQuotientExceeds
  simp only [gt_iff_lt, if_neg hdt.ne.symm, decide_eq_true_eq, if_neg hq]
  rcases lt_trichotomy v_1 0 with hneg | hzero | hpos
  · rw [if_pos hneg, sign_neg hneg, abs_of_neg hneg]
    simp
  · subst hzero
    simp
  · rw [if_neg (not_lt.mpr hpos.le), sign_pos hpos, abs_of_pos hpos]
    simp

/-- Witness of C6 at target 2, previous 1.5, elapsed time 1: the signal is 1. -/
theorem drivebaseVelocityToPWM_within_accel_witness :
    (0 : ℚ) < 1 ∧ |(2 : ℚ) - 3 / 2| / 1 ≤ 1 ∧
    drivebaseVelocityToPWM 2 (3 / 2) 1 = ((SignType.sign (2 : ℚ) : SignType) : ℚ) * min |2| 1 :=
  ⟨by norm_num, by norm_num [abs_le],
    drivebaseVelocityToPWM_within_accel 2 (3 / 2) 1 (by norm_num) (by norm_num [abs_le])⟩

/-- C7, the code at target 1, previous 0.5, elapsed time 0.1: the requested change exceeds
the acceleration limit (`|1 - 0.5| / 0.1 = 5 > 1`), the capped velocity of the claim is
`0.5 + 1 * 0.1 = 0.6`, and `drivebaseVelocityToPWM` returns `1 * 0.1 - 0.5 = -0.4`. -/
theorem drivebaseVelocityToPWM_accel_branch_eval :
    (0 : ℚ) < 1 / 10 ∧ |(1 : ℚ) - 1 / 2| / (1 / 10) > 1 ∧
    drivebaseVelocityToPWM 1 (1 / 2) (1 / 10) = -(2 / 5) ∧
    (1 / 2 : ℚ) + ((SignType.sign ((1 : ℚ) - 1 / 2) : SignType) : ℚ) * 1 * (1 / 10) = 3 / 5 := by
  refine ⟨by norm_num, by rw [abs_of_pos (by norm_num)]; norm_num, ?_, ?_⟩
  · unfold drivebaseVelocityToPWM absQuotientExceeds
    norm_num [abs_of_pos]
  · rw [sign_pos (by norm_num)]
    norm_num

/-- On finite operands every signal of the four conversion functions lies in [-1, 1]:
`angleToPWM`, `turntableAngleToPWM`, both components of `twinAngleToPWM`, and
`drivebaseVelocityToPWM` for every target, previous velocity and elapsed time. -/
theorem conversion_signals_bounded :
    (∀ desired actual : ℚ,
      -1 ≤ angleToPWM desired actual ∧ angleToPWM desired actual ≤ 1) ∧
    (∀ desired actual : ℚ,
      -1 ≤ turntableAngleToPWM desired actual ∧ turntableAngleToPWM desired actual ≤ 1) ∧
    (∀ desired actual_left actual_right : ℚ,
      (-1 ≤ (twinAngleToPWM desired actual_left actual_right).1 ∧
        (twinAngleToPWM desired actual_left actual_right).1 ≤ 1) ∧
      (-1 ≤ (twinAngleToPWM desired actual_left actual_right).2 ∧
        (twinAngleToPWM desired actual_left actual_right).2 ≤ 1)) ∧
    (∀ v_1 v_0 d_t : ℚ,
      -1 ≤ drivebaseVelocityToPWM v_1 v_0 d_t ∧ drivebaseVelocityToPWM v_1 v_0 d_t ≤ 1) := by
  refine ⟨fun desired actual => ?_, fun desired actual => ?_,
    fun desired actual_left actual_right => ?_, fun v_1 v_0 d_t => ?_⟩
  · unfold angleToPWM
    simp only
    split_ifs <;> norm_num
  · unfold turntableAngleToPWM
    simp only
    split_ifs <;> norm_num
  · unfold twinAngleToPWM
    simp only
    split_ifs <;> norm_num
  · unfold drivebaseVelocityToPWM
    simp only
    generalize (if absQuotientExceeds (v_1 - v_0) d_t 1 = true then
      (if v_1 - v_0 < 0 then -1 else 1) * d_t - v_0 else v_1) = vel
    by_cases hv : vel < 0
    · rw [if_pos hv]
      have h0 : (0 : ℚ) ≤ min (vel * ((-1 : ℤ) : ℚ) / 1) 1 :=
        le_min (by push_cast; linarith) (by norm_num)
      have h1 : min (vel * ((-1 : ℤ) : ℚ) / 1) 1 ≤ 1 := min_le_right _ _
      push_cast at h0 h1 ⊢
      constructor <;> linarith
    · rw [if_neg hv]
      have hv0 : 0 ≤ vel := not_lt.mp hv
      have h0 : (0 : ℚ) ≤ min (vel * ((1 : ℤ) : ℚ) / 1) 1 :=
        le_min (by push_cast; linarith) (by norm_num)
      have h1 : min (vel * ((1 : ℤ) : ℚ) / 1) 1 ≤ 1 := min_le_right _ _
      push_cast at h0 h1 ⊢
      constructor <;> linarith

/-- The operations of `Double` on finite operands are the operations on rationals. -/
theorem double_ops_val (x y : ℚ) :
    Double.sub (Double.val x) (Double.val y) = Double.val (x - y) ∧
    Double.add (Double.val x) (Double.val y) = Double.val (x + y) ∧
    Double.mul (Double.val x) (Double.val y) = Double.val (x * y) ∧
    Double.divConst (Double.val x) y = Double.val (x / y) ∧
    Double.fabs (Double.val x) = Double.val |x| ∧
    Double.lt (Double.val x) (Double.val y) = decide (x < y) ∧
    Double.gt (Double.val x) (Double.val y) = decide (x > y) :=
  ⟨rfl, rfl, rfl, rfl, rfl, rfl, rfl⟩

/-- On finite operands `std::min` is the minimum. -/
theorem stdMin_val (x y : ℚ) :
    Double.stdMin (Double.val x) (Double.val y) = Double.val (min x y) := by
  unfold Double.stdMin
  rw [(double_ops_val y x).2.2.2.2.2.1]
  by_cases h : y < x
  · simp only [h, decide_True, if_true, min_eq_right h.le]
  · simp only [h, decide_False, min_eq_left (not_lt.mp h)]
    rfl

/-- The velocity limit of `drivebaseVelocityToPWM` on a finite velocity, in `WithNaN`. -/
theorem withNaN_velocity_limit (vel : ℚ) :
    Double.mul (Double.val ((if Double.lt (Double.val vel) (Double.val 0) then -1 else 1 : ℤ) : ℚ))
      (Double.stdMin
        (Double.divConst
          (Double.mul (Double.val vel)
            (Double.val ((if Double.lt (Double.val vel) (Double.val 0) then -1 else 1 : ℤ) : ℚ)))
          1)
        (Double.val 1)) =
    Double.val (((if vel < 0 then -1 else 1 : ℤ) : ℚ) *
      min ((vel * ((if vel < 0 then -1 else 1 : ℤ) : ℚ)) / 1) 1) := by
  rw [(double_ops_val vel 0).2.2.2.2.2.1]
  simp only [decide_eq_true_eq]
  rw [(double_ops_val vel _).2.2.1, (double_ops_val _ 1).2.2.2.1, stdMin_val,
    (double_ops_val _ _).2.2.1]

/-- On finite operands the conversion functions of `WithNaN` are the conversion functions
on rationals. -/
theorem withNaN_agrees_on_finite :
    (∀ desired actual : ℚ,
      WithNaN.angleToPWM (Double.val desired) (Double.val actual) =
        Double.val (angleToPWM desired actual)) ∧
    (∀ desired actual : ℚ,
      WithNaN.turntableAngleToPWM (Double.val desired) (Double.val actual) =
        Double.val (turntableAngleToPWM desired actual)) ∧
    (∀ desired l r : ℚ,
      WithNaN.twinAngleToPWM (Double.val desired) (Double.val l) (Double.val r) =
        (Double.val (twinAngleToPWM desired l r).1,
          Double.val (twinAngleToPWM desired l r).2)) ∧
    (∀ v_1 v_0 d_t : ℚ,
      WithNaN.drivebaseVelocityToPWM (Double.val v_1) (Double.val v_0) (Double.val d_t) =
        Double.val (drivebaseVelocityToPWM v_1 v_0 d_t)) := by
  refine ⟨fun desired actual => ?_, fun desired actual => ?_, fun desired l r => ?_,
    fun v_1 v_0 d_t => ?_⟩
  · simp only [WithNaN.angleToPWM, angleToPWM, Double.sub, Double.fabs, Double.gt, Double.lt,
      decide_eq_true_eq, gt_iff_lt]
    split_ifs <;> rfl
  · simp only [WithNaN.turntableAngleToPWM, turntableAngleToPWM, Double.sub, Double.fabs,
      Double.gt, Double.lt, decide_eq_true_eq, gt_iff_lt]
    split_ifs <;> rfl
  · simp only [WithNaN.twinAngleToPWM, twinAngleToPWM, Double.sub, Double.add,
      Double.divConst, Double.fabs, Double.gt, Double.lt, Double.mul, decide_eq_true_eq,
      gt_iff_lt]
    split_ifs <;> rfl
  · unfold WithNaN.drivebaseVelocityToPWM drivebaseVelocityToPWM
    have hq1 : Double.quotientExceeds (Double.val (v_1 - v_0)) (Double.val d_t) 1 =
        absQuotientExceeds (v_1 - v_0) d_t 1 := rfl
    simp only [(double_ops_val v_1 v_0).1, hq1, (double_ops_val (v_1 - v_0) 0).2.2.2.2.2.1,
      decide_eq_true_eq]
    by_cases hq : absQuotientExceeds (v_1 - v_0) d_t 1 = true
    · simp only [hq, if_true]
      rw [(double_ops_val _ d_t).2.2.1, (double_ops_val _ v_0).1]
      exact withNaN_velocity_limit _
    · simp only [hq]
      exact withNaN_velocity_limit _

/-- The velocity limit of `drivebaseVelocityToPWM` keeps every finite velocity in
[-1, 1]. -/
theorem velocity_limit_bounded (vel : ℚ) :
    -1 ≤ ((if vel < 0 then -1 else 1 : ℤ) : ℚ) *
        min ((vel * ((if vel < 0 then -1 else 1 : ℤ) : ℚ)) / 1) 1 ∧
    ((if vel < 0 then -1 else 1 : ℤ) : ℚ) *
        min ((vel * ((if vel < 0 then -1 else 1 : ℤ) : ℚ)) / 1) 1 ≤ 1 := by
  by_cases hv : vel < 0
  · rw [if_pos hv]
    have h0 : (0 : ℚ) ≤ min (vel * ((-1 : ℤ) : ℚ) / 1) 1 :=
      le_min (by push_cast; linarith) (by norm_num)
    have h1 : min (vel * ((-1 : ℤ) : ℚ) / 1) 1 ≤ 1 := min_le_right _ _
    push_cast at h0 h1 ⊢
    constructor <;> linarith
  · rw [if_neg hv]
    have hv0 : 0 ≤ vel := not_lt.mp hv
    have h0 : (0 : ℚ) ≤ min (vel * ((1 : ℤ) : ℚ) / 1) 1 :=
      le_min (by push_cast; linarith) (by norm_num)
    have h1 : min (vel * ((1 : ℤ) : ℚ) / 1) 1 ≤ 1 := min_le_right _ _
    push_cast at h0 h1 ⊢
    constructor <;> linarith

/-- With a finite target and a NaN among the previous velocity and the elapsed time, the
acceleration test fails and `drivebaseVelocityToPWM` is the velocity limit of the
target. -/
theorem withNaN_drivebase_nan_operand (v_1 : ℚ) (v_0 d_t : Double)
    (hnan : v_0 = Double.nan ∨ d_t = Double.nan) :
    WithNaN.drivebaseVelocityToPWM (Double.val v_1) v_0 d_t =
      Double.val (((if v_1 < 0 then -1 else 1 : ℤ) : ℚ) *
        min ((v_1 * ((if v_1 < 0 then -1 else 1 : ℤ) : ℚ)) / 1) 1) := by
  have hq : Double.quotientExceeds (Double.sub (Double.val v_1) v_0) d_t 1 = false := by
    rcases hnan with h | h
    · subst h
      rfl
    · subst h
      cases v_0 <;> rfl
  unfold WithNaN.drivebaseVelocityToPWM
  simp only [hq]
  exact withNaN_velocity_limit v_1

/-- C8, counterexample: for a NaN target, previous velocity 0 and elapsed time 1,
`drivebaseVelocityToPWM` skips the acceleration branch (the test on a NaN fails), takes
sign 1, and `std::min(NaN, 1.0)` is the NaN: the result is a NaN, not a number in
[-1, 1]. -/
theorem drivebaseVelocityToPWM_nan_counterexample :
    WithNaN.drivebaseVelocityToPWM Double.nan (Double.val 0) (Double.val 1) = Double.nan ∧
    ¬ Double.inUnit
      (WithNaN.drivebaseVelocityToPWM Double.nan (Double.val 0) (Double.val 1)) := by
  have h : WithNaN.drivebaseVelocityToPWM Double.nan (Double.val 0) (Double.val 1) =
      Double.nan := rfl
  refine ⟨h, ?_⟩
  rw [h]
  exact fun hf => hf

/-- C8, amended: every signal of the four conversion functions is a number in [-1, 1]
for every input that is a finite value or a NaN, provided the target of
`drivebaseVelocityToPWM` is not a NaN: `angleToPWM` and `turntableAngleToPWM` for every
desired and actual, both components of `twinAngleToPWM` for every desired, left and
right, and `drivebaseVelocityToPWM` for every finite target `v_1` and every previous
velocity and elapsed time. -/
theorem conversion_signals_bounded_unless_nan_target :
    (∀ desired actual : Double, Double.inUnit (WithNaN.angleToPWM desired actual)) ∧
    (∀ desired actual : Double,
      Double.inUnit (WithNaN.turntableAngleToPWM desired actual)) ∧
    (∀ desired actual_left actual_right : Double,
      Double.inUnit (WithNaN.twinAngleToPWM desired actual_left actual_right).1 ∧
      Double.inUnit (WithNaN.twinAngleToPWM desired actual_left actual_right).2) ∧
    (∀ (v_1 : ℚ) (v_0 d_t : Double),
      Double.inUnit (WithNaN.drivebaseVelocityToPWM (Double.val v_1) v_0 d_t)) ∧
    (∀ v_1 v_0 d_t : ℚ,
      -1 ≤ drivebaseVelocityToPWM v_1 v_0 d_t ∧ drivebaseVelocityToPWM v_1 v_0 d_t ≤ 1) := by
  obtain ⟨hangle, hturn, htwin, hdrive⟩ := conversion_signals_bounded
  obtain ⟨rangle, rturn, rtwin, rdrive⟩ := withNaN_agrees_on_finite
  have hzero : Double.inUnit (Double.val 0) := ⟨by norm_num, by norm_num⟩
  refine ⟨fun desired actual => ?_, fun desired actual => ?_,
    fun desired actual_left actual_right => ?_, fun v_1 v_0 d_t => ?_, hdrive⟩
  · cases desired with
    | nan => exact hzero
    | val d =>
      cases actual with
      | nan => exact hzero
      | val a =>
        rw [rangle]
        exact hangle d a
  · cases desired with
    | nan => exact hzero
    | val d =>
      cases actual with
      | nan => exact hzero
      | val a =>
        rw [rturn]
        exact hturn d a
  · cases desired with
    | nan => exact ⟨hzero, hzero⟩
    | val d =>
      cases actual_left with
      | nan => exact ⟨hzero, hzero⟩
      | val l =>
        cases actual_right with
        | nan => exact ⟨hzero, hzero⟩
        | val r =>
          rw [rtwin]
          exact htwin d l r
  · cases v_0 with
    | nan =>
      rw [withNaN_drivebase_nan_operand v_1 Double.nan d_t (Or.inl rfl)]
      exact velocity_limit_bounded v_1
    | val b =>
      cases d_t with
      | nan =>
        rw [withNaN_drivebase_nan_operand v_1 (Double.val b) Double.nan (Or.inr rfl)]
        exact velocity_limit_bounded v_1
      | val c =>
        rw [rdrive]
        exact hdrive v_1 b c

/-- The command array after `clearCommands`, cell by cell. -/
theorem clearCommands_command_values (s : RobotInterface) (j : Joint) :
    s.clearCommands.command_values j =
      (match j with
       | Joint.LEFT_TREAD => 0
       | Joint.RIGHT_TREAD => 0
       | Joint.BIN => s.position_values Joint.BIN
       | Joint.TURNTABLE => s.position_values Joint.TURNTABLE
       | Joint.LOWER_ARM => s.position_values Joint.LOWER_ARM
       | Joint.UPPER_ARM => s.position_values Joint.UPPER_ARM
       | Joint.SCOOP => s.position_values Joint.SCOOP) := by
  cases j <;> simp [RobotInterface.clearCommands, RobotInterface.setCommand, Function.update]

/-- Everything but the command array is untouched by `clearCommands`. -/
theorem clearCommands_eq (s : RobotInterface) :
    s.clearCommands = { s with command_values := s.clearCommands.command_values } := by
  simp [RobotInterface.clearCommands, RobotInterface.setCommand]

/-- C9: `clearCommands` never reads commands and is idempotent.  After it, the tread
commands are 0 and the turntable, lower-arm, upper-arm, scoop and bin commands are the
current positions; the resulting command array is the same whatever the prior commands
were; and a second call leaves the whole state as the first call left it. -/
theorem clearCommands_idempotent_reads_no_commands :
    (∀ s : RobotInterface,
      s.clearCommands.command_values Joint.LEFT_TREAD = 0 ∧
      s.clearCommands.command_values Joint.RIGHT_TREAD = 0 ∧
      s.clearCommands.command_values Joint.TURNTABLE = s.position_values Joint.TURNTABLE ∧
      s.clearCommands.command_values Joint.LOWER_ARM = s.position_values Joint.LOWER_ARM ∧
      s.clearCommands.command_values Joint.UPPER_ARM = s.position_values Joint.UPPER_ARM ∧
      s.clearCommands.command_values Joint.SCOOP = s.position_values Joint.SCOOP ∧
      s.clearCommands.command_values Joint.BIN = s.position_values Joint.BIN) ∧
    (∀ (s : RobotInterface) (prior : Joint → ℚ),
      (RobotInterface.clearCommands { s with command_values := prior }).command_values =
        s.clearCommands.command_values) ∧
    (∀ s : RobotInterface, s.clearCommands.clearCommands = s.clearCommands) := by
  refine ⟨fun s => ?_, fun s prior => ?_, fun s => ?_⟩
  · simp [clearCommands_command_values]
  · funext j
    rw [clearCommands_command_values, clearCommands_command_values]
  · rw [clearCommands_eq s.clearCommands]
    conv_rhs => rw [clearCommands_eq s]
    have hc : s.clearCommands.clearCommands.command_values = s.clearCommands.command_values := by
      funext j
      rw [clearCommands_command_values, clearCommands_command_values]
      cases j <;> simp [RobotInterface.clearCommands, RobotInterface.setCommand]
    rw [hc]
    simp [RobotInterface.clearCommands, RobotInterface.setCommand]

/-- The joint positions after `read` on real hardware, for the arm joints. -/
theorem read_real_arm_positions (s : RobotInterface) (hreal : s.use_fake_values = false) :
    s.read.position_values Joint.TURNTABLE = s.reading.arm_turntable_pos ∧
    s.read.position_values Joint.LOWER_ARM =
      (s.reading.arm_lower_left_pos + s.reading.arm_lower_right_pos) / 2 ∧
    s.read.position_values Joint.UPPER_ARM = s.reading.arm_upper_pos ∧
    s.read.position_values Joint.SCOOP = s.reading.arm_scoop_pos := by
  obtain ⟨f, ll, ul, ix, jc, la, p, v, e, c, d, lu⟩ := s
  simp only at hreal
  subst hreal
  exact ⟨rfl, rfl, rfl, rfl⟩

/-- The fields `read` and `clearCommands` leave alone: the mode flag, the latest sample,
the drivebase memo and the time of the last update; and `clearCommands` keeps the
positions that `read` projected. -/
theorem read_clearCommands_frame (s : RobotInterface) :
    s.read.clearCommands.use_fake_values = s.use_fake_values ∧
    s.read.clearCommands.reading = s.reading ∧
    s.read.clearCommands.drivebase_v0 = s.drivebase_v0 ∧
    s.read.clearCommands.last_update = s.last_update ∧
    s.read.clearCommands.position_values = s.read.position_values := by
  obtain ⟨f, ll, ul, ix, jc, la, p, v, e, c, d, lu⟩ := s
  cases f <;> exact ⟨rfl, rfl, rfl, rfl, rfl⟩

/-- At zero difference the deadband conversions return 0. -/
theorem angleToPWM_self (x : ℚ) : angleToPWM x x = 0 ∧ turntableAngleToPWM x x = 0 := by
  unfold angleToPWM turntableAngleToPWM
  simp

/-- A desired angle equal to the mean of the two readings gives the pair (0, 0). -/
theorem twinAngleToPWM_mean (l r : ℚ) : twinAngleToPWM ((l + r) / 2) l r = (0, 0) := by
  unfold twinAngleToPWM
  simp

/-- The calls `pwm.set` of `write` on real hardware: the arm signals, then the two tread
signals, then the two bin signals. -/
theorem write_real_signals (s : RobotInterface) (t_left t_right t_upkeep : ℚ)
    (hreal : s.use_fake_values = false) :
    (s.write t_left t_right t_upkeep).2 =
      s.armSignals ++
        [(Address.TREAD_LEFT,
            drivebaseVelocityToPWM (s.command_values Joint.LEFT_TREAD) s.drivebase_v0.1
              (t_left - s.last_update)),
          (Address.TREAD_RIGHT,
            drivebaseVelocityToPWM (s.command_values Joint.RIGHT_TREAD) s.drivebase_v0.2
              (t_right - s.last_update)),
          (Address.BIN_LEFT,
            (twinAngleToPWM (s.command_values Joint.BIN) s.reading.bin_left_pos
              s.reading.bin_left_pos).1),
          (Address.BIN_RIGHT,
            (twinAngleToPWM (s.command_values Joint.BIN) s.reading.bin_left_pos
              s.reading.bin_left_pos).2)] := by
  obtain ⟨f, ll, ul, ix, jc, la, p, v, e, c, d, lu⟩ := s
  simp only at hreal
  subst hreal
  rfl

/-- C10: on real hardware, for every latest telemetry sample (or none), after `read`,
then `clearCommands`, then `write`, the signals dispatched to ARM_TURNTABLE,
ARM_LOWER_LEFT, ARM_LOWER_RIGHT, ARM_UPPER and ARM_SCOOP are all 0: the arm holds. -/
theorem write_after_clearCommands_holds_arm (s : RobotInterface)
    (t_left t_right t_upkeep : ℚ) (hreal : s.use_fake_values = false) :
    signalAt (s.read.clearCommands.write t_left t_right t_upkeep).2
      Address.ARM_TURNTABLE = some 0 ∧
    signalAt (s.read.clearCommands.write t_left t_right t_upkeep).2
      Address.ARM_LOWER_LEFT = some 0 ∧
    signalAt (s.read.clearCommands.write t_left t_right t_upkeep).2
      Address.ARM_LOWER_RIGHT = some 0 ∧
    signalAt (s.read.clearCommands.write t_left t_right t_upkeep).2
      Address.ARM_UPPER = some 0 ∧
    signalAt (s.read.clearCommands.write t_left t_right t_upkeep).2
      Address.ARM_SCOOP = some 0 := by
  obtain ⟨hfake, hreading, -, -, hpos⟩ := read_clearCommands_frame s
  obtain ⟨hturn, hlower, hupper, hscoop⟩ := read_real_arm_positions s hreal
  rw [write_real_signals _ _ _ _ (hfake.trans hreal)]
  unfold RobotInterface.armSignals
  simp only [hreading, hpos, clearCommands_command_values, hturn, hlower, hupper, hscoop,
    angleToPWM_self, twinAngleToPWM_mean]
  simp [signalAt]

/-- Witness of C10 on `sampleInterface`, whose lower-arm readings differ by 0.2. -/
theorem write_after_clearCommands_holds_arm_witness :
    sampleInterface.use_fake_values = false ∧
    signalAt (sampleInterface.read.clearCommands.write 1 1 1).2
      Address.ARM_TURNTABLE = some 0 ∧
    signalAt (sampleInterface.read.clearCommands.write 1 1 1).2
      Address.ARM_LOWER_LEFT = some 0 ∧
    signalAt (sampleInterface.read.clearCommands.write 1 1 1).2
      Address.ARM_LOWER_RIGHT = some 0 ∧
    signalAt (sampleInterface.read.clearCommands.write 1 1 1).2
      Address.ARM_UPPER = some 0 ∧
    signalAt (sampleInterface.read.clearCommands.write 1 1 1).2
      Address.ARM_SCOOP = some 0 :=
  ⟨rfl, write_after_clearCommands_holds_arm sampleInterface 1 1 1 rfl⟩

/-! ### The simulated loop -/

/-- One iteration of the simulated loop only touches `position_values`. -/
theorem fakeStep_frame (s : RobotInterface) (i : Nat) :
    (s.fakeStep i).use_fake_values = s.use_fake_values ∧
    (s.fakeStep i).lower_limits = s.lower_limits ∧
    (s.fakeStep i).upper_limits = s.upper_limits ∧
    (s.fakeStep i).idx = s.idx ∧
    (s.fakeStep i).JOINT_COUNT = s.JOINT_COUNT ∧
    (s.fakeStep i).latest_arduino = s.latest_arduino ∧
    (s.fakeStep i).velocity_values = s.velocity_values ∧
    (s.fakeStep i).effort_values = s.effort_values ∧
    (s.fakeStep i).command_values = s.command_values ∧
    (s.fakeStep i).drivebase_v0 = s.drivebase_v0 ∧
    (s.fakeStep i).last_update = s.last_update :=
  ⟨rfl, rfl, rfl, rfl, rfl, rfl, rfl, rfl, rfl, rfl, rfl⟩

/-- Any number of iterations of the simulated loop only touches `position_values`. -/
theorem foldl_fakeStep_frame (l : List Nat) (s : RobotInterface) :
    (l.foldl RobotInterface.fakeStep s).use_fake_values = s.use_fake_values ∧
    (l.foldl RobotInterface.fakeStep s).lower_limits = s.lower_limits ∧
    (l.foldl RobotInterface.fakeStep s).upper_limits = s.upper_limits ∧
    (l.foldl RobotInterface.fakeStep s).idx = s.idx ∧
    (l.foldl RobotInterface.fakeStep s).JOINT_COUNT = s.JOINT_COUNT ∧
    (l.foldl RobotInterface.fakeStep s).latest_arduino = s.latest_arduino ∧
    (l.foldl RobotInterface.fakeStep s).velocity_values = s.velocity_values ∧
    (l.foldl RobotInterface.fakeStep s).effort_values = s.effort_values ∧
    (l.foldl RobotInterface.fakeStep s).command_values = s.command_values ∧
    (l.foldl RobotInterface.fakeStep s).drivebase_v0 = s.drivebase_v0 ∧
    (l.foldl RobotInterface.fakeStep s).last_update = s.last_update := by
  induction l generalizing s with
  | nil => exact ⟨rfl, rfl, rfl, rfl, rfl, rfl, rfl, rfl, rfl, rfl, rfl⟩
  | cons i l ih =>
    rw [List.foldl_cons]
    obtain ⟨h1, h2, h3, h4, h5, h6, h7, h8, h9, h10, h11⟩ := ih (s.fakeStep i)
    exact ⟨h1, h2, h3, h4, h5, h6, h7, h8, h9, h10, h11⟩

/-- The position cells after iterating the simulated loop over the indices of `l`: the
joints whose index is in `l` hold `fakePosition`, the others are untouched. -/
theorem foldl_fakeStep_position (l : List Nat) (s : RobotInterface) (j : Joint) :
    (l.foldl RobotInterface.fakeStep s).position_values j =
      if s.idx j ∈ l then fakePosition s j else s.position_values j := by
  induction l generalizing s with
  | nil => simp
  | cons i l ih =>
    rw [List.foldl_cons, ih (s.fakeStep i)]
    have hidx : (s.fakeStep i).idx j = s.idx j := rfl
    have hfp : fakePosition (s.fakeStep i) j = fakePosition s j := rfl
    have hpos : (s.fakeStep i).position_values j =
        if s.idx j = i then fakePosition s j else s.position_values j := by
      by_cases h : s.idx j = i
      · subst h
        simp [RobotInterface.fakeStep, fakePosition]
      · simp [RobotInterface.fakeStep, h]
    rw [hidx, hfp, hpos]
    by_cases h1 : s.idx j ∈ l
    · simp [h1]
    · by_cases h2 : s.idx j = i
      · simp [h2]
      · simp [h1, h2]

/-- The simulated loop of `write`: it only touches `position_values`, and there it
assigns `fakePosition` to the joints with an index from 3 up to `JOINT_COUNT - 1`. -/
theorem fakeLoop_spec (s : RobotInterface) :
    s.fakeLoop.velocity_values = s.velocity_values ∧
    s.fakeLoop.effort_values = s.effort_values ∧
    s.fakeLoop.command_values = s.command_values ∧
    s.fakeLoop.drivebase_v0 = s.drivebase_v0 ∧
    s.fakeLoop.last_update = s.last_update ∧
    (∀ j : Joint, s.fakeLoop.position_values j =
      if 3 ≤ s.idx j ∧ s.idx j < s.JOINT_COUNT then fakePosition s j
      else s.position_values j) := by
  obtain ⟨-, -, -, -, -, -, h7, h8, h9, h10, h11⟩ :=
    foldl_fakeStep_frame (List.range' 3 (s.JOINT_COUNT - 3)) s
  refine ⟨h7, h8, h9, h10, h11, fun j => ?_⟩
  unfold RobotInterface.fakeLoop
  rw [foldl_fakeStep_position]
  have hmem : s.idx j ∈ List.range' 3 (s.JOINT_COUNT - 3) ↔
      (3 ≤ s.idx j ∧ s.idx j < s.JOINT_COUNT) := by
    rw [List.mem_range'_1]
    omega
  by_cases h : 3 ≤ s.idx j ∧ s.idx j < s.JOINT_COUNT
  · rw [if_pos (hmem.mpr h), if_pos h]
  · rw [if_neg (fun hm => h (hmem.mp hm)), if_neg h]

/-! ### One call of `write` -/

/-- The result of `write` on simulated hardware, in terms of the state after the loop. -/
theorem write_fake_eq (s : RobotInterface) (t_left t_right t_upkeep : ℚ)
    (hfake : s.use_fake_values = true) :
    s.write t_left t_right t_upkeep =
      ({ s.fakeLoop with
          last_update := t_upkeep
          drivebase_v0 := (s.fakeLoop.velocity_values Joint.LEFT_TREAD,
            s.fakeLoop.velocity_values Joint.RIGHT_TREAD) },
        [(Address.TREAD_LEFT,
            drivebaseVelocityToPWM (s.fakeLoop.command_values Joint.LEFT_TREAD)
              s.fakeLoop.drivebase_v0.1 (t_left - s.fakeLoop.last_update)),
          (Address.TREAD_RIGHT,
            drivebaseVelocityToPWM (s.fakeLoop.command_values Joint.RIGHT_TREAD)
              s.fakeLoop.drivebase_v0.2 (t_right - s.fakeLoop.last_update)),
          (Address.BIN_LEFT,
            (twinAngleToPWM (s.fakeLoop.command_values Joint.BIN) s.reading.bin_left_pos
              s.reading.bin_left_pos).1),
          (Address.BIN_RIGHT,
            (twinAngleToPWM (s.fakeLoop.command_values Joint.BIN) s.reading.bin_left_pos
              s.reading.bin_left_pos).2)]) := by
  obtain ⟨f, ll, ul, ix, jc, la, p, v, e, c, d, lu⟩ := s
  simp only at hfake
  subst hfake
  rfl

/-- The state after `write` on real hardware: only the memo and the time change. -/
theorem write_real_state (s : RobotInterface) (t_left t_right t_upkeep : ℚ)
    (hreal : s.use_fake_values = false) :
    (s.write t_left t_right t_upkeep).1 =
      { s with
        last_update := t_upkeep
        drivebase_v0 := (s.velocity_values Joint.LEFT_TREAD,
          s.velocity_values Joint.RIGHT_TREAD) } := by
  obtain ⟨f, ll, ul, ix, jc, la, p, v, e, c, d, lu⟩ := s
  simp only at hreal
  subst hreal
  rfl

/-- The calls `pwm.set` of `write` in either mode: the arm signals on real hardware and
none on simulated hardware, then the tread and bin signals. -/
theorem write_signals (s : RobotInterface) (t_left t_right t_upkeep : ℚ) :
    (s.write t_left t_right t_upkeep).2 =
      (if s.use_fake_values = true then [] else s.armSignals) ++
        treadBinSignals s t_left t_right := by
  by_cases hfake : s.use_fake_values = true
  · obtain ⟨-, -, hc, hd, hl, -⟩ := fakeLoop_spec s
    rw [write_fake_eq s t_left t_right t_upkeep hfake, if_pos hfake, hc, hd, hl]
    rfl
  · have hreal : s.use_fake_values = false := by simpa using hfake
    rw [if_neg hfake]
    obtain ⟨f, ll, ul, ix, jc, la, p, v, e, c, d, lu⟩ := s
    simp only at hreal
    subst hreal
    rfl

/-- The memo, the time and, on simulated hardware, the positions after `write`. -/
theorem write_state (s : RobotInterface) (t_left t_right t_upkeep : ℚ) :
    (s.write t_left t_right t_upkeep).1.drivebase_v0 =
      (s.velocity_values Joint.LEFT_TREAD, s.velocity_values Joint.RIGHT_TREAD) ∧
    (s.write t_left t_right t_upkeep).1.last_update = t_upkeep ∧
    (s.write t_left t_right t_upkeep).1.command_values = s.command_values ∧
    (s.use_fake_values = true →
      (s.write t_left t_right t_upkeep).1.position_values = s.fakeLoop.position_values) := by
  by_cases hfake : s.use_fake_values = true
  · obtain ⟨hv, -, hc, -, -, -⟩ := fakeLoop_spec s
    rw [write_fake_eq s t_left t_right t_upkeep hfake]
    refine ⟨?_, rfl, hc, fun _ => rfl⟩
    show (s.fakeLoop.velocity_values Joint.LEFT_TREAD,
      s.fakeLoop.velocity_values Joint.RIGHT_TREAD) = _
    rw [hv]
  · have hreal : s.use_fake_values = false := by simpa using hfake
    rw [write_real_state s t_left t_right t_upkeep hreal]
    exact ⟨rfl, rfl, rfl, fun h => absurd h hfake⟩

/-- Looking a tread or bin channel up in the calls of `write`. -/
theorem signalAt_write_tread_bin (s : RobotInterface) (t_left t_right t_upkeep : ℚ) :
    signalAt (s.write t_left t_right t_upkeep).2 Address.TREAD_LEFT =
      some (drivebaseVelocityToPWM (s.command_values Joint.LEFT_TREAD) s.drivebase_v0.1
        (t_left - s.last_update)) ∧
    signalAt (s.write t_left t_right t_upkeep).2 Address.TREAD_RIGHT =
      some (drivebaseVelocityToPWM (s.command_values Joint.RIGHT_TREAD) s.drivebase_v0.2
        (t_right - s.last_update)) ∧
    signalAt (s.write t_left t_right t_upkeep).2 Address.BIN_LEFT =
      some (twinAngleToPWM (s.command_values Joint.BIN) s.reading.bin_left_pos
        s.reading.bin_left_pos).1 ∧
    signalAt (s.write t_left t_right t_upkeep).2 Address.BIN_RIGHT =
      some (twinAngleToPWM (s.command_values Joint.BIN) s.reading.bin_left_pos
        s.reading.bin_left_pos).2 := by
  rw [write_signals]
  by_cases hfake : s.use_fake_values = true
  · rw [if_pos hfake]
    simp [signalAt, treadBinSignals]
  · rw [if_neg hfake]
    simp [signalAt, treadBinSignals, RobotInterface.armSignals]

/-! ### One call of `read` -/

/-- The cells `read` assigns in both modes: the two treads and the bin; and the fields it
never touches. -/
theorem read_tread_bin_cells (s : RobotInterface) :
    (s.read.position_values Joint.LEFT_TREAD = 0 ∧
      s.read.velocity_values Joint.LEFT_TREAD = s.reading.tread_left_vel ∧
      s.read.effort_values Joint.LEFT_TREAD = 0) ∧
    (s.read.position_values Joint.RIGHT_TREAD = 0 ∧
      s.read.velocity_values Joint.RIGHT_TREAD = s.reading.tread_right_vel ∧
      s.read.effort_values Joint.RIGHT_TREAD = 0) ∧
    (s.read.position_values Joint.BIN =
        (s.reading.bin_left_pos + s.reading.bin_right_pos) / 2 ∧
      s.read.velocity_values Joint.BIN = 0 ∧
      s.read.effort_values Joint.BIN = 0) ∧
    (s.read.use_fake_values = s.use_fake_values ∧ s.read.reading = s.reading ∧
      s.read.command_values = s.command_values ∧ s.read.drivebase_v0 = s.drivebase_v0 ∧
      s.read.last_update = s.last_update) := by
  obtain ⟨f, ll, ul, ix, jc, la, p, v, e, c, d, lu⟩ := s
  cases f <;>
    exact ⟨⟨rfl, rfl, rfl⟩, ⟨rfl, rfl, rfl⟩, ⟨rfl, rfl, rfl⟩, ⟨rfl, rfl, rfl, rfl, rfl⟩⟩

/-- The cells of the four arm joints after `read` on real hardware. -/
theorem read_real_arm_cells (s : RobotInterface) (hreal : s.use_fake_values = false) :
    (s.read.position_values Joint.TURNTABLE = s.reading.arm_turntable_pos ∧
      s.read.velocity_values Joint.TURNTABLE = 0 ∧
      s.read.effort_values Joint.TURNTABLE = 0) ∧
    (s.read.position_values Joint.LOWER_ARM =
        (s.reading.arm_lower_left_pos + s.reading.arm_lower_right_pos) / 2 ∧
      s.read.velocity_values Joint.LOWER_ARM = 0 ∧
      s.read.effort_values Joint.LOWER_ARM = 0) ∧
    (s.read.position_values Joint.UPPER_ARM = s.reading.arm_upper_pos ∧
      s.read.velocity_values Joint.UPPER_ARM = 0 ∧
      s.read.effort_values Joint.UPPER_ARM = 0) ∧
    (s.read.position_values Joint.SCOOP = s.reading.arm_scoop_pos ∧
      s.read.velocity_values Joint.SCOOP = 0 ∧
      s.read.effort_values Joint.SCOOP = 0) := by
  obtain ⟨f, ll, ul, ix, jc, la, p, v, e, c, d, lu⟩ := s
  simp only at hreal
  subst hreal
  exact ⟨⟨rfl, rfl, rfl⟩, ⟨rfl, rfl, rfl⟩, ⟨rfl, rfl, rfl⟩, ⟨rfl, rfl, rfl⟩⟩

/-- The cells of the four arm joints are untouched by `read` on simulated hardware. -/
theorem read_fake_arm_cells (s : RobotInterface) (hfake : s.use_fake_values = true) :
    (s.read.position_values Joint.TURNTABLE = s.position_values Joint.TURNTABLE ∧
      s.read.velocity_values Joint.TURNTABLE = s.velocity_values Joint.TURNTABLE ∧
      s.read.effort_values Joint.TURNTABLE = s.effort_values Joint.TURNTABLE) ∧
    (s.read.position_values Joint.LOWER_ARM = s.position_values Joint.LOWER_ARM ∧
      s.read.velocity_values Joint.LOWER_ARM = s.velocity_values Joint.LOWER_ARM ∧
      s.read.effort_values Joint.LOWER_ARM = s.effort_values Joint.LOWER_ARM) ∧
    (s.read.position_values Joint.UPPER_ARM = s.position_values Joint.UPPER_ARM ∧
      s.read.velocity_values Joint.UPPER_ARM = s.velocity_values Joint.UPPER_ARM ∧
      s.read.effort_values Joint.UPPER_ARM = s.effort_values Joint.UPPER_ARM) ∧
    (s.read.position_values Joint.SCOOP = s.position_values Joint.SCOOP ∧
      s.read.velocity_values Joint.SCOOP = s.velocity_values Joint.SCOOP ∧
      s.read.effort_values Joint.SCOOP = s.effort_values Joint.SCOOP) := by
  obtain ⟨f, ll, ul, ix, jc, la, p, v, e, c, d, lu⟩ := s
  simp only at hfake
  subst hfake
  exact ⟨⟨rfl, rfl, rfl⟩, ⟨rfl, rfl, rfl⟩, ⟨rfl, rfl, rfl⟩, ⟨rfl, rfl, rfl⟩⟩

/-- With a desired angle and twice the same reading, the twin conversion is the deadband
bang-bang on both channels. -/
theorem twinAngleToPWM_same (desired actual : ℚ) :
    twinAngleToPWM desired actual actual =
      (angleToPWM desired actual, angleToPWM desired actual) := by
  unfold twinAngleToPWM angleToPWM
  have hmean : (actual + actual) / 2 = actual := by ring
  simp only [hmean, sub_self, abs_zero]
  split_ifs <;> first | rfl | norm_num at *

/-! ### Bin hold, extension query, missing telemetry -/

/-- The bin signals of `write` after `read` and `clearCommands`: the deadband bang-bang of
the mean of the two bin readings against the left reading, on both channels. -/
theorem bin_signals_after_clearCommands (s : RobotInterface) (t_left t_right t_upkeep : ℚ) :
    signalAt (s.read.clearCommands.write t_left t_right t_upkeep).2 Address.BIN_LEFT =
      some (angleToPWM ((s.reading.bin_left_pos + s.reading.bin_right_pos) / 2)
        s.reading.bin_left_pos) ∧
    signalAt (s.read.clearCommands.write t_left t_right t_upkeep).2 Address.BIN_RIGHT =
      some (angleToPWM ((s.reading.bin_left_pos + s.reading.bin_right_pos) / 2)
        s.reading.bin_left_pos) := by
  obtain ⟨-, hreading, -, -, hpos⟩ := read_clearCommands_frame s
  obtain ⟨-, -, ⟨hbin, -, -⟩, -⟩ := read_tread_bin_cells s
  obtain ⟨-, -, hl, hr⟩ :=
    signalAt_write_tread_bin s.read.clearCommands t_left t_right t_upkeep
  rw [hl, hr, hreading, clearCommands_command_values, hbin, twinAngleToPWM_same]
  exact ⟨rfl, rfl⟩

/-- C11, the code on `sampleInterface`, whose telemetry has bin_left_pos = 0.1 and
bin_right_pos = 0.6: after `read`, `clearCommands` and `write` the bin command is the mean
0.35, `write` compares it with the left reading 0.1 twice, and both bin channels are
driven with signal 1 instead of 0. -/
theorem bin_not_held_after_clearCommands_eval :
    sampleInterface.reading.bin_left_pos = 1 / 10 ∧
    sampleInterface.reading.bin_right_pos = 3 / 5 ∧
    sampleInterface.read.clearCommands.command_values Joint.BIN = 7 / 20 ∧
    signalAt (sampleInterface.read.clearCommands.write 1 1 1).2 Address.BIN_LEFT = some 1 ∧
    signalAt (sampleInterface.read.clearCommands.write 1 1 1).2 Address.BIN_RIGHT = some 1 := by
  obtain ⟨hl, hr⟩ := bin_signals_after_clearCommands sampleInterface 1 1 1
  obtain ⟨-, -, ⟨hbin, -, -⟩, -⟩ := read_tread_bin_cells sampleInterface
  have hbl : sampleInterface.reading.bin_left_pos = 1 / 10 := rfl
  have hbr : sampleInterface.reading.bin_right_pos = 3 / 5 := rfl
  have hsig : angleToPWM (((1 : ℚ) / 10 + 3 / 5) / 2) (1 / 10) = 1 := by
    unfold angleToPWM
    norm_num [abs_of_pos]
  refine ⟨hbl, hbr, ?_, ?_, ?_⟩
  · rw [clearCommands_command_values, hbin, hbl, hbr]
    norm_num
  · rw [hl, hbl, hbr, hsig]
  · rw [hr, hbl, hbr, hsig]

/-- C12, counterexample: at the boundary, bin position 0.775398 = goal - tolerance, the
position is at least goal - tolerance and `isBinExtended` returns false. -/
theorem isBinExtended_boundary_counterexample :
    ¬ ((sampleInterface.setPosition Joint.BIN (775398 / 1000000)).isBinExtended = true ↔
      (sampleInterface.setPosition Joint.BIN (775398 / 1000000)).position_values Joint.BIN ≥
        785398 / 1000000 - 1 / 100) := by
  have hp : (sampleInterface.setPosition Joint.BIN (775398 / 1000000)).position_values
      Joint.BIN = 775398 / 1000000 := by
    simp [RobotInterface.setPosition]
  unfold RobotInterface.isBinExtended
  rw [hp]
  norm_num

/-- C12, amended: for every bin position p, `isBinExtended` returns true if and only if
`goal - p < tolerance`, that is `p > goal - tolerance`, with goal = 0.785398 and
tolerance = 0.01: true exactly when p > 0.775398, so for every p at or above the goal,
and false for every p ≤ 0.775398, the boundary included. -/
theorem isBinExtended_iff (s : RobotInterface) :
    (s.isBinExtended = true ↔ s.position_values Joint.BIN > 785398 / 1000000 - 1 / 100) ∧
    (s.isBinExtended = true ↔ s.position_values Joint.BIN > 775398 / 1000000) ∧
    (s.position_values Joint.BIN ≥ 785398 / 1000000 → s.isBinExtended = true) ∧
    (s.position_values Joint.BIN ≤ 775398 / 1000000 → s.isBinExtended = false) := by
  unfold RobotInterface.isBinExtended
  simp only [decide_eq_true_eq, decide_eq_false_iff_not, not_lt]
  refine ⟨?_, ?_, ?_, ?_⟩
  · constructor <;> intro h <;> linarith
  · constructor <;> intro h <;> linarith
  · intro h
    linarith
  · intro h
    linarith

/-- C13: when no telemetry sample has arrived, on real hardware `read` sets position,
velocity and effort of all seven joints to 0, and a following `write` with all commands 0
and drivebase memo (0, 0) dispatches signal 0 to each of the nine channels, whatever the
clock readings and the time of the last update are. -/
theorem no_telemetry_all_zero (s : RobotInterface) (t_left t_right t_upkeep : ℚ)
    (hnone : s.latest_arduino = none) (hreal : s.use_fake_values = false)
    (hcmd : ∀ j : Joint, s.command_values j = 0) (hmemo : s.drivebase_v0 = (0, 0)) :
    (∀ j : Joint, s.read.position_values j = 0 ∧ s.read.velocity_values j = 0 ∧
      s.read.effort_values j = 0) ∧
    (∀ a : Address, signalAt (s.read.write t_left t_right t_upkeep).2 a = some 0) := by
  have hzero : s.reading = ArduinoReading.zero := by
    unfold RobotInterface.reading
    rw [hnone]
  obtain ⟨⟨hl1, hl2, hl3⟩, ⟨hr1, hr2, hr3⟩, ⟨hb1, hb2, hb3⟩, hf, hrd, hc, hd, hlu⟩ :=
    read_tread_bin_cells s
  obtain ⟨⟨ht1, ht2, ht3⟩, ⟨hw1, hw2, hw3⟩, ⟨hu1, hu2, hu3⟩, ⟨hs1, hs2, hs3⟩⟩ :=
    read_real_arm_cells s hreal
  rw [hzero] at hl2 hr2 hb1 ht1 hw1 hu1 hs1
  have hz : ((0 : ℚ) + 0) / 2 = 0 := by norm_num
  have hdrive : ∀ d_t : ℚ, drivebaseVelocityToPWM 0 0 d_t = 0 := by
    intro d_t
    have hq : absQuotientExceeds 0 d_t 1 = false := by
      unfold absQuotientExceeds
      by_cases h0 : d_t = 0
      · simp [h0]
      · simp [h0]
    unfold drivebaseVelocityToPWM
    simp [hq]
  have hpos : ∀ j : Joint, s.read.position_values j = 0 := by
    intro j
    cases j
    · exact hl1
    · exact hr1
    · rw [hb1]; exact hz
    · rw [ht1]; rfl
    · rw [hw1]; exact hz
    · rw [hu1]; rfl
    · rw [hs1]; rfl
  refine ⟨fun j => ⟨hpos j, ?_, ?_⟩, fun a => ?_⟩
  · cases j
    · rw [hl2]; rfl
    · rw [hr2]; rfl
    · exact hb2
    · exact ht2
    · exact hw2
    · exact hu2
    · exact hs2
  · cases j
    · exact hl3
    · exact hr3
    · exact hb3
    · exact ht3
    · exact hw3
    · exact hu3
    · exact hs3
  · have hcmd0 : ∀ j : Joint, s.read.command_values j = 0 := by
      intro j
      rw [hc]
      exact hcmd j
    have hbl : s.read.reading.bin_left_pos = 0 := by rw [hrd, hzero]; rfl
    have hll : s.read.reading.arm_lower_left_pos = 0 := by rw [hrd, hzero]; rfl
    have hlr : s.read.reading.arm_lower_right_pos = 0 := by rw [hrd, hzero]; rfl
    have htwin : twinAngleToPWM 0 0 0 = (0, 0) := by
      rw [twinAngleToPWM_same, (angleToPWM_self 0).1]
    rw [write_signals, if_neg (by rw [hf, hreal]; simp)]
    unfold RobotInterface.armSignals treadBinSignals
    simp only [hcmd0, hpos, hbl, hll, hlr, hd, hmemo, htwin, hdrive, (angleToPWM_self 0).1,
      (angleToPWM_self 0).2]
    cases a <;> simp [signalAt]

/-- Witness of C13 on `sampleNoTelemetry`, at the clock readings 1, 2 and 3. -/
theorem no_telemetry_all_zero_witness :
    sampleNoTelemetry.latest_arduino = none ∧ sampleNoTelemetry.use_fake_values = false ∧
    (∀ j : Joint, sampleNoTelemetry.command_values j = 0) ∧
    sampleNoTelemetry.drivebase_v0 = (0, 0) ∧
    (∀ j : Joint, sampleNoTelemetry.read.position_values j = 0 ∧
      sampleNoTelemetry.read.velocity_values j = 0 ∧
      sampleNoTelemetry.read.effort_values j = 0) ∧
    (∀ a : Address, signalAt (sampleNoTelemetry.read.write 1 2 3).2 a = some 0) :=
  ⟨rfl, rfl, fun _ => rfl, rfl,
    no_telemetry_all_zero sampleNoTelemetry 1 2 3 rfl rfl (fun _ => rfl) rfl⟩

/-! ### The simulated branch of `write` -/

/-- The positions after `write` on simulated hardware: `fakePosition` for the joints with
an index from 3 up to `JOINT_COUNT - 1`, the previous position for the others. -/
theorem write_fake_position (s : RobotInterface) (t_left t_right t_upkeep : ℚ)
    (hfake : s.use_fake_values = true) (j : Joint) :
    (s.write t_left t_right t_upkeep).1.position_values j =
      if 3 ≤ s.idx j ∧ s.idx j < s.JOINT_COUNT then fakePosition s j
      else s.position_values j := by
  obtain ⟨-, -, -, hpos⟩ := write_state s t_left t_right t_upkeep
  obtain ⟨-, -, -, -, -, hloop⟩ := fakeLoop_spec s
  rw [hpos hfake, hloop j]

/-- C14: on simulated hardware, for every joint whose index i satisfies
`3 ≤ i < JOINT_COUNT`, the position after `write` is `max(min(command, upper), lower)`
when `|lower| ≥ 1e-3` or `|upper| ≥ 1e-3`, which for `lower ≤ upper` lies in
`[lower, upper]` and is the command itself when the command is in that range; and it is
the command, unclamped, when both `|lower| < 1e-3` and `|upper| < 1e-3`.  With the joints
numbered in the order of the spec and seven joints, the upper arm is one of these joints. -/
theorem write_fake_clamps (s : RobotInterface) (t_left t_right t_upkeep : ℚ)
    (hfake : s.use_fake_values = true) :
    (∀ j : Joint, 3 ≤ s.idx j → s.idx j < s.JOINT_COUNT →
      ((|s.lower_limits (s.idx j)| ≥ 1 / 1000 ∨ |s.upper_limits (s.idx j)| ≥ 1 / 1000) →
        (s.write t_left t_right t_upkeep).1.position_values j =
          max (min (s.command_values j) (s.upper_limits (s.idx j)))
            (s.lower_limits (s.idx j)) ∧
        (s.lower_limits (s.idx j) ≤ s.upper_limits (s.idx j) →
          s.lower_limits (s.idx j) ≤ (s.write t_left t_right t_upkeep).1.position_values j ∧
          (s.write t_left t_right t_upkeep).1.position_values j ≤ s.upper_limits (s.idx j) ∧
          (s.lower_limits (s.idx j) ≤ s.command_values j →
            s.command_values j ≤ s.upper_limits (s.idx j) →
            (s.write t_left t_right t_upkeep).1.position_values j = s.command_values j))) ∧
      ((|s.lower_limits (s.idx j)| < 1 / 1000 ∧ |s.upper_limits (s.idx j)| < 1 / 1000) →
        (s.write t_left t_right t_upkeep).1.position_values j = s.command_values j)) ∧
    (s.idx = specOrder → s.JOINT_COUNT = 7 →
      (s.write t_left t_right t_upkeep).1.position_values Joint.UPPER_ARM =
        fakePosition s Joint.UPPER_ARM) := by
  refine ⟨fun j h3 hcount => ?_, fun hidx hcount => ?_⟩
  · have hpos := write_fake_position s t_left t_right t_upkeep hfake j
    rw [if_pos ⟨h3, hcount⟩] at hpos
    rw [hpos]
    unfold fakePosition
    refine ⟨fun hlim => ?_, fun hsent => ?_⟩
    · rw [if_pos hlim]
      refine ⟨rfl, fun hle => ⟨le_max_right _ _, ?_, fun hlo hhi => ?_⟩⟩
      · exact max_le (min_le_right _ _) hle
      · rw [min_eq_left hhi, max_eq_left hlo]
    · rw [if_neg]
      rintro (h | h)
      · exact absurd hsent.1 (not_lt.mpr h)
      · exact absurd hsent.2 (not_lt.mpr h)
  · have hpos := write_fake_position s t_left t_right t_upkeep hfake Joint.UPPER_ARM
    rw [hpos, hidx, hcount]
    simp [specOrder]

/-- Witness of C14: on `sampleFake` the upper arm, command 2 with limits (0, 1.5), ends at
position 1.5. -/
theorem write_fake_clamps_witness :
    sampleFake.use_fake_values = true ∧
    sampleFake.command_values Joint.UPPER_ARM = 2 ∧
    sampleFake.lower_limits (sampleFake.idx Joint.UPPER_ARM) = 0 ∧
    sampleFake.upper_limits (sampleFake.idx Joint.UPPER_ARM) = 3 / 2 ∧
    (sampleFake.write 1 1 1).1.position_values Joint.UPPER_ARM = 3 / 2 := by
  have hlo : sampleFake.lower_limits (sampleFake.idx Joint.UPPER_ARM) = 0 := rfl
  have hup : sampleFake.upper_limits (sampleFake.idx Joint.UPPER_ARM) = 3 / 2 := by
    simp [sampleFake, sampleInterface]
  have hcmd : sampleFake.command_values Joint.UPPER_ARM = 2 := rfl
  have h := ((write_fake_clamps sampleFake 1 1 1 rfl).1 Joint.UPPER_ARM
    (by decide) (by decide)).1 (Or.inr (by rw [hup]; norm_num [le_abs])) |>.1
  rw [hlo, hup, hcmd] at h
  refine ⟨rfl, hcmd, hlo, hup, ?_⟩
  rw [h]
  norm_num

/-- The state `sampleFake` numbers its joints in the order of the constructor. -/
theorem sampleFake_idx : sampleFake.idx = constructorOrder := by
  funext j
  cases j <;> rfl

/-- C15, counterexample: on `sampleFake`, simulated hardware with the joints numbered in
the order of the constructor and seven joints, the bin (index 2, no limits) is commanded
to 2 and `write` leaves its position at 5: the command of the bin, a joint beyond the
two treads, is not passed through. -/
theorem write_fake_keeps_bin_counterexample :
    sampleFake.use_fake_values = true ∧
    sampleFake.idx = constructorOrder ∧
    sampleFake.JOINT_COUNT = 7 ∧
    sampleFake.command_values Joint.BIN = 2 ∧
    fakePosition sampleFake Joint.BIN = 2 ∧
    (sampleFake.write 1 1 1).1.position_values Joint.BIN = 5 ∧
    (sampleFake.write 1 1 1).1.position_values Joint.BIN ≠
      sampleFake.command_values Joint.BIN := by
  have hcmd : sampleFake.command_values Joint.BIN = 2 := rfl
  have hpos : (sampleFake.write 1 1 1).1.position_values Joint.BIN = 5 := by
    rw [write_fake_position sampleFake 1 1 1 rfl Joint.BIN]
    have hidx : sampleFake.idx Joint.BIN = 2 := rfl
    rw [if_neg (by rw [hidx]; omega)]
    rfl
  refine ⟨rfl, sampleFake_idx, rfl, hcmd, ?_, hpos, ?_⟩
  · simp [fakePosition, sampleFake, sampleInterface]
  · rw [hpos, hcmd]
    norm_num

/-- C15, amended: on simulated hardware `write` passes the command through as the new
position, clamped to its declared limits when they are not the sentinel, exactly for the
joints whose index i satisfies `3 ≤ i < JOINT_COUNT`, and leaves the position of every
other joint unchanged.  With the joints numbered in the order of the constructor and
seven joints these are turntable, lower-arm, upper-arm and scoop; the two treads and the
bin (index 2) keep their position. -/
theorem write_fake_passes_index_range (s : RobotInterface) (t_left t_right t_upkeep : ℚ)
    (hfake : s.use_fake_values = true) :
    (∀ j : Joint, (s.write t_left t_right t_upkeep).1.position_values j =
      if 3 ≤ s.idx j ∧ s.idx j < s.JOINT_COUNT then fakePosition s j
      else s.position_values j) ∧
    (s.idx = constructorOrder → s.JOINT_COUNT = 7 →
      (s.write t_left t_right t_upkeep).1.position_values Joint.TURNTABLE =
        fakePosition s Joint.TURNTABLE ∧
      (s.write t_left t_right t_upkeep).1.position_values Joint.LOWER_ARM =
        fakePosition s Joint.LOWER_ARM ∧
      (s.write t_left t_right t_upkeep).1.position_values Joint.UPPER_ARM =
        fakePosition s Joint.UPPER_ARM ∧
      (s.write t_left t_right t_upkeep).1.position_values Joint.SCOOP =
        fakePosition s Joint.SCOOP ∧
      (s.write t_left t_right t_upkeep).1.position_values Joint.BIN =
        s.position_values Joint.BIN ∧
      (s.write t_left t_right t_upkeep).1.position_values Joint.LEFT_TREAD =
        s.position_values Joint.LEFT_TREAD ∧
      (s.write t_left t_right t_upkeep).1.position_values Joint.RIGHT_TREAD =
        s.position_values Joint.RIGHT_TREAD) := by
  have hpos := write_fake_position s t_left t_right t_upkeep hfake
  refine ⟨hpos, fun hidx hcount => ?_⟩
  simp only [hpos, hidx, hcount]
  simp [constructorOrder]

/-- Witness of C15 (amended) on `sampleFake`, where every command is 2, every stale
position is 5 and only the upper arm has limits, (0, 1.5): after `write` the turntable,
the lower arm and the scoop are at 2, the upper arm at 1.5, and the bin and the two
treads still at 5. -/
theorem write_fake_passes_index_range_witness :
    sampleFake.use_fake_values = true ∧
    (sampleFake.write 1 1 1).1.position_values Joint.TURNTABLE = 2 ∧
    (sampleFake.write 1 1 1).1.position_values Joint.LOWER_ARM = 2 ∧
    (sampleFake.write 1 1 1).1.position_values Joint.UPPER_ARM = 3 / 2 ∧
    (sampleFake.write 1 1 1).1.position_values Joint.SCOOP = 2 ∧
    (sampleFake.write 1 1 1).1.position_values Joint.BIN = 5 ∧
    (sampleFake.write 1 1 1).1.position_values Joint.LEFT_TREAD = 5 ∧
    (sampleFake.write 1 1 1).1.position_values Joint.RIGHT_TREAD = 5 := by
  obtain ⟨ht, hw, hu, hs, hb, hl, hr⟩ :=
    (write_fake_passes_index_range sampleFake 1 1 1 rfl).2 sampleFake_idx rfl
  have ft : fakePosition sampleFake Joint.TURNTABLE = 2 := by
    simp [fakePosition, sampleFake, sampleInterface]
  have fw : fakePosition sampleFake Joint.LOWER_ARM = 2 := by
    simp [fakePosition, sampleFake, sampleInterface]
  have fu : fakePosition sampleFake Joint.UPPER_ARM = 3 / 2 := by
    simp [fakePosition, sampleFake, sampleInterface]
    norm_num [le_abs]
  have fs : fakePosition sampleFake Joint.SCOOP = 2 := by
    simp [fakePosition, sampleFake, sampleInterface]
  exact ⟨rfl, ht.trans ft, hw.trans fw, hu.trans fu, hs.trans fs, hb, hl, hr⟩

/-! ### State projection -/

/-- The three joint state arrays after `read` on real hardware, as functions of the
telemetry sample alone. -/
theorem read_real_arrays (s : RobotInterface) (hreal : s.use_fake_values = false) :
    s.read.position_values =
      (fun j =>
        match j with
        | Joint.LEFT_TREAD => 0
        | Joint.RIGHT_TREAD => 0
        | Joint.BIN => (s.reading.bin_left_pos + s.reading.bin_right_pos) / 2
        | Joint.TURNTABLE => s.reading.arm_turntable_pos
        | Joint.LOWER_ARM =>
          (s.reading.arm_lower_left_pos + s.reading.arm_lower_right_pos) / 2
        | Joint.UPPER_ARM => s.reading.arm_upper_pos
        | Joint.SCOOP => s.reading.arm_scoop_pos) ∧
    s.read.velocity_values =
      (fun j =>
        match j with
        | Joint.LEFT_TREAD => s.reading.tread_left_vel
        | Joint.RIGHT_TREAD => s.reading.tread_right_vel
        | Joint.BIN => 0
        | Joint.TURNTABLE => 0
        | Joint.LOWER_ARM => 0
        | Joint.UPPER_ARM => 0
        | Joint.SCOOP => 0) ∧
    s.read.effort_values = (fun _ => 0) := by
  obtain ⟨⟨hl1, hl2, hl3⟩, ⟨hr1, hr2, hr3⟩, ⟨hb1, hb2, hb3⟩, -⟩ := read_tread_bin_cells s
  obtain ⟨⟨ht1, ht2, ht3⟩, ⟨hw1, hw2, hw3⟩, ⟨hu1, hu2, hu3⟩, ⟨hs1, hs2, hs3⟩⟩ :=
    read_real_arm_cells s hreal
  refine ⟨funext fun j => ?_, funext fun j => ?_, funext fun j => ?_⟩
  · cases j
    · exact hl1
    · exact hr1
    · exact hb1
    · exact ht1
    · exact hw1
    · exact hu1
    · exact hs1
  · cases j
    · exact hl2
    · exact hr2
    · exact hb2
    · exact ht2
    · exact hw2
    · exact hu2
    · exact hs2
  · cases j
    · exact hl3
    · exact hr3
    · exact hb3
    · exact ht3
    · exact hw3
    · exact hu3
    · exact hs3

/-- C16: on real hardware, for every telemetry sample `r` held in `latest_arduino`, after
`read` the joint state is: treads position 0, velocity `r.tread_left_vel` and
`r.tread_right_vel`, effort 0; turntable, upper-arm and scoop position the raw field of
`r`; lower-arm and bin position the mean of their two fields of `r`; velocity and effort
0 for these five joints.  The result is the same whatever the previous position,
velocity and effort arrays were. -/
theorem read_real_projection (s : RobotInterface) (r : ArduinoReading)
    (hreal : s.use_fake_values = false) (hsample : s.latest_arduino = some r) :
    (s.read.position_values Joint.LEFT_TREAD = 0 ∧
      s.read.velocity_values Joint.LEFT_TREAD = r.tread_left_vel ∧
      s.read.effort_values Joint.LEFT_TREAD = 0) ∧
    (s.read.position_values Joint.RIGHT_TREAD = 0 ∧
      s.read.velocity_values Joint.RIGHT_TREAD = r.tread_right_vel ∧
      s.read.effort_values Joint.RIGHT_TREAD = 0) ∧
    (s.read.position_values Joint.TURNTABLE = r.arm_turntable_pos ∧
      s.read.velocity_values Joint.TURNTABLE = 0 ∧
      s.read.effort_values Joint.TURNTABLE = 0) ∧
    (s.read.position_values Joint.LOWER_ARM =
        (r.arm_lower_left_pos + r.arm_lower_right_pos) / 2 ∧
      s.read.velocity_values Joint.LOWER_ARM = 0 ∧
      s.read.effort_values Joint.LOWER_ARM = 0) ∧
    (s.read.position_values Joint.UPPER_ARM = r.arm_upper_pos ∧
      s.read.velocity_values Joint.UPPER_ARM = 0 ∧
      s.read.effort_values Joint.UPPER_ARM = 0) ∧
    (s.read.position_values Joint.SCOOP = r.arm_scoop_pos ∧
      s.read.velocity_values Joint.SCOOP = 0 ∧
      s.read.effort_values Joint.SCOOP = 0) ∧
    (s.read.position_values Joint.BIN = (r.bin_left_pos + r.bin_right_pos) / 2 ∧
      s.read.velocity_values Joint.BIN = 0 ∧
      s.read.effort_values Joint.BIN = 0) ∧
    (∀ p v e : Joint → ℚ,
      (RobotInterface.read
          { s with position_values := p, velocity_values := v, effort_values := e }
        ).position_values = s.read.position_values ∧
      (RobotInterface.read
          { s with position_values := p, velocity_values := v, effort_values := e }
        ).velocity_values = s.read.velocity_values ∧
      (RobotInterface.read
          { s with position_values := p, velocity_values := v, effort_values := e }
        ).effort_values = s.read.effort_values) := by
  have hr : s.reading = r := by
    unfold RobotInterface.reading
    rw [hsample]
  obtain ⟨hl, hr1, hb, -⟩ := read_tread_bin_cells s
  obtain ⟨ht, hw, hu, hs⟩ := read_real_arm_cells s hreal
  rw [hr] at hl hr1 hb ht hw hu hs
  refine ⟨hl, hr1, ht, hw, hu, hs, hb, fun p v e => ?_⟩
  obtain ⟨hp, hv, he⟩ := read_real_arrays s hreal
  obtain ⟨hp1, hv1, he1⟩ := read_real_arrays
    { s with position_values := p, velocity_values := v, effort_values := e } hreal
  rw [hp, hv, he, hp1, hv1, he1]
  exact ⟨rfl, rfl, rfl⟩

/-- Witness of C16 on `sampleInterface`, whose sample has tread velocities 0.5 and -0.25,
turntable 0.3, lower arm 0.2 and 0.4, upper arm 0.7, scoop -0.1, bin 0.1 and 0.6: the
positions are 0, 0, 0.3, 0.3, 0.7, -0.1 and 0.35, the tread velocities 0.5 and -0.25. -/
theorem read_real_projection_witness :
    sampleInterface.use_fake_values = false ∧
    sampleInterface.latest_arduino = some sampleReading ∧
    sampleInterface.read.position_values Joint.LEFT_TREAD = 0 ∧
    sampleInterface.read.velocity_values Joint.LEFT_TREAD = 1 / 2 ∧
    sampleInterface.read.position_values Joint.RIGHT_TREAD = 0 ∧
    sampleInterface.read.velocity_values Joint.RIGHT_TREAD = -(1 / 4) ∧
    sampleInterface.read.position_values Joint.TURNTABLE = 3 / 10 ∧
    sampleInterface.read.position_values Joint.LOWER_ARM = 3 / 10 ∧
    sampleInterface.read.position_values Joint.UPPER_ARM = 7 / 10 ∧
    sampleInterface.read.position_values Joint.SCOOP = -(1 / 10) ∧
    sampleInterface.read.position_values Joint.BIN = 7 / 20 ∧
    sampleInterface.read.velocity_values Joint.BIN = 0 := by
  obtain ⟨⟨hl1, hl2, -⟩, ⟨hr1, hr2, -⟩, ⟨ht, -, -⟩, ⟨hw, -, -⟩, ⟨hu, -, -⟩, ⟨hs, -, -⟩,
    ⟨hb1, hb2, -⟩, -⟩ := read_real_projection sampleInterface sampleReading rfl rfl
  refine ⟨rfl, rfl, hl1, hl2, hr1, hr2, ht, ?_, hu, hs, ?_, hb2⟩
  · rw [hw]
    norm_num [sampleReading]
  · rw [hb1]
    norm_num [sampleReading]

/-- C17: on simulated hardware, for every telemetry sample `r` held in `latest_arduino`
and every prior state, `read` leaves position, velocity and effort of turntable,
lower-arm, upper-arm and scoop unchanged, and still sets the two treads (position 0,
velocity `r.tread_left_vel` and `r.tread_right_vel`, effort 0) and the bin (position the
mean of `r.bin_left_pos` and `r.bin_right_pos`, velocity 0, effort 0). -/
theorem read_fake_projection (s : RobotInterface) (r : ArduinoReading)
    (hfake : s.use_fake_values = true) (hsample : s.latest_arduino = some r) :
    (s.read.position_values Joint.TURNTABLE = s.position_values Joint.TURNTABLE ∧
      s.read.velocity_values Joint.TURNTABLE = s.velocity_values Joint.TURNTABLE ∧
      s.read.effort_values Joint.TURNTABLE = s.effort_values Joint.TURNTABLE) ∧
    (s.read.position_values Joint.LOWER_ARM = s.position_values Joint.LOWER_ARM ∧
      s.read.velocity_values Joint.LOWER_ARM = s.velocity_values Joint.LOWER_ARM ∧
      s.read.effort_values Joint.LOWER_ARM = s.effort_values Joint.LOWER_ARM) ∧
    (s.read.position_values Joint.UPPER_ARM = s.position_values Joint.UPPER_ARM ∧
      s.read.velocity_values Joint.UPPER_ARM = s.velocity_values Joint.UPPER_ARM ∧
      s.read.effort_values Joint.UPPER_ARM = s.effort_values Joint.UPPER_ARM) ∧
    (s.read.position_values Joint.SCOOP = s.position_values Joint.SCOOP ∧
      s.read.velocity_values Joint.SCOOP = s.velocity_values Joint.SCOOP ∧
      s.read.effort_values Joint.SCOOP = s.effort_values Joint.SCOOP) ∧
    (s.read.position_values Joint.LEFT_TREAD = 0 ∧
      s.read.velocity_values Joint.LEFT_TREAD = r.tread_left_vel ∧
      s.read.effort_values Joint.LEFT_TREAD = 0) ∧
    (s.read.position_values Joint.RIGHT_TREAD = 0 ∧
      s.read.velocity_values Joint.RIGHT_TREAD = r.tread_right_vel ∧
      s.read.effort_values Joint.RIGHT_TREAD = 0) ∧
    (s.read.position_values Joint.BIN = (r.bin_left_pos + r.bin_right_pos) / 2 ∧
      s.read.velocity_values Joint.BIN = 0 ∧
      s.read.effort_values Joint.BIN = 0) := by
  have hr : s.reading = r := by
    unfold RobotInterface.reading
    rw [hsample]
  obtain ⟨hl, hr1, hb, -⟩ := read_tread_bin_cells s
  obtain ⟨ht, hw, hu, hs⟩ := read_fake_arm_cells s hfake
  rw [hr] at hl hr1 hb
  exact ⟨ht, hw, hu, hs, hl, hr1, hb⟩

/-- Witness of C17 on `sampleFake`, whose stale joint state is position 5, velocity 6 and
effort 7 everywhere and whose sample reads turntable 0.3, tread velocities 0.5 and -0.25,
bin 0.1 and 0.6: the turntable keeps (5, 6, 7), the treads get position 0 with
velocities 0.5 and -0.25, and the bin gets position 0.35 with velocity 0. -/
theorem read_fake_projection_witness :
    sampleFake.use_fake_values = true ∧
    sampleFake.latest_arduino = some sampleReading ∧
    sampleFake.read.position_values Joint.TURNTABLE = 5 ∧
    sampleFake.read.velocity_values Joint.TURNTABLE = 6 ∧
    sampleFake.read.effort_values Joint.TURNTABLE = 7 ∧
    sampleFake.read.position_values Joint.LEFT_TREAD = 0 ∧
    sampleFake.read.velocity_values Joint.LEFT_TREAD = 1 / 2 ∧
    sampleFake.read.velocity_values Joint.RIGHT_TREAD = -(1 / 4) ∧
    sampleFake.read.position_values Joint.BIN = 7 / 20 ∧
    sampleFake.read.velocity_values Joint.BIN = 0 ∧
    sampleFake.read.effort_values Joint.BIN = 0 := by
  obtain ⟨⟨ht1, ht2, ht3⟩, -, -, -, ⟨hl1, hl2, -⟩, ⟨-, hr2, -⟩, ⟨hb1, hb2, hb3⟩⟩ :=
    read_fake_projection sampleFake sampleReading rfl rfl
  refine ⟨rfl, rfl, ht1, ht2, ht3, hl1, hl2, hr2, ?_, hb2, hb3⟩
  rw [hb1]
  norm_num [sampleReading]

/-! ### Drivebase memo, bin signals, mode independence -/

/-- C18, counterexample: on `sampleInterface` after `read`, both tread commands are 2 and
the measured tread velocities are 0.5 and -0.25; after `write` the memo is
(0.5, -0.25), not the commands (2, 2). -/
theorem write_memo_counterexample :
    sampleInterface.read.command_values Joint.LEFT_TREAD = 2 ∧
    sampleInterface.read.command_values Joint.RIGHT_TREAD = 2 ∧
    (sampleInterface.read.write 1 1 1).1.drivebase_v0 = (1 / 2, -(1 / 4)) ∧
    (sampleInterface.read.write 1 1 1).1.drivebase_v0.1 ≠
      sampleInterface.read.command_values Joint.LEFT_TREAD ∧
    (sampleInterface.read.write 1 1 1).1.drivebase_v0.2 ≠
      sampleInterface.read.command_values Joint.RIGHT_TREAD := by
  obtain ⟨hmemo, -, -, -⟩ := write_state sampleInterface.read 1 1 1
  obtain ⟨⟨-, hl, -⟩, ⟨-, hr, -⟩, -, -, -, hc, -, -⟩ := read_tread_bin_cells sampleInterface
  have hvl : sampleInterface.reading.tread_left_vel = 1 / 2 := rfl
  have hvr : sampleInterface.reading.tread_right_vel = -(1 / 4) := rfl
  have hcl : sampleInterface.read.command_values Joint.LEFT_TREAD = 2 := by
    rw [hc]; rfl
  have hcr : sampleInterface.read.command_values Joint.RIGHT_TREAD = 2 := by
    rw [hc]; rfl
  rw [hl, hr, hvl, hvr] at hmemo
  refine ⟨hcl, hcr, hmemo, ?_, ?_⟩
  · rw [hmemo, hcl]
    norm_num
  · rw [hmemo, hcr]
    norm_num

/-- C18, amended: after every `write`, in either mode, the drivebase memo holds for each
tread the velocity of the joint state, `velocity_values`, not the command that `write`
consumed, and `last_update` is the clock reading of the upkeep; in a cycle of `read` then
`write` the memo is the pair of tread velocities of the telemetry sample, so that the
next acceleration limiting is measured from the measured velocity. -/
theorem write_memo_is_joint_velocity (s : RobotInterface) (t_left t_right t_upkeep : ℚ) :
    (s.write t_left t_right t_upkeep).1.drivebase_v0.1 =
      s.velocity_values Joint.LEFT_TREAD ∧
    (s.write t_left t_right t_upkeep).1.drivebase_v0.2 =
      s.velocity_values Joint.RIGHT_TREAD ∧
    (s.write t_left t_right t_upkeep).1.last_update = t_upkeep ∧
    (s.read.write t_left t_right t_upkeep).1.drivebase_v0 =
      (s.reading.tread_left_vel, s.reading.tread_right_vel) := by
  obtain ⟨hmemo, hlast, -, -⟩ := write_state s t_left t_right t_upkeep
  obtain ⟨hmemo1, -, -, -⟩ := write_state s.read t_left t_right t_upkeep
  obtain ⟨⟨-, hl, -⟩, ⟨-, hr, -⟩, -, -⟩ := read_tread_bin_cells s
  refine ⟨?_, ?_, hlast, ?_⟩
  · rw [hmemo]
  · rw [hmemo]
  · rw [hmemo1, hl, hr]

/-- C19: for every state, mode and telemetry sample `r` held in `latest_arduino`, the two
bin signals dispatched by `write` are equal and both are `angleToPWM` of the bin command
against `r.bin_left_pos`; `r.bin_right_pos` has no influence on either: with any other
value for it the two signals are the same.  When no sample has arrived the left reading
is the default 0. -/
theorem write_bin_signals_use_left_reading (s : RobotInterface)
    (t_left t_right t_upkeep : ℚ) :
    (∀ r : ArduinoReading, s.latest_arduino = some r →
      signalAt (s.write t_left t_right t_upkeep).2 Address.BIN_LEFT =
        some (angleToPWM (s.command_values Joint.BIN) r.bin_left_pos) ∧
      signalAt (s.write t_left t_right t_upkeep).2 Address.BIN_RIGHT =
        some (angleToPWM (s.command_values Joint.BIN) r.bin_left_pos) ∧
      signalAt (s.write t_left t_right t_upkeep).2 Address.BIN_LEFT =
        signalAt (s.write t_left t_right t_upkeep).2 Address.BIN_RIGHT ∧
      (∀ x : ℚ,
        signalAt ((RobotInterface.write
            { s with latest_arduino := some { r with bin_right_pos := x } }
            t_left t_right t_upkeep).2) Address.BIN_LEFT =
          signalAt (s.write t_left t_right t_upkeep).2 Address.BIN_LEFT ∧
        signalAt ((RobotInterface.write
            { s with latest_arduino := some { r with bin_right_pos := x } }
            t_left t_right t_upkeep).2) Address.BIN_RIGHT =
          signalAt (s.write t_left t_right t_upkeep).2 Address.BIN_RIGHT)) ∧
    (s.latest_arduino = none →
      signalAt (s.write t_left t_right t_upkeep).2 Address.BIN_LEFT =
        some (angleToPWM (s.command_values Joint.BIN) 0) ∧
      signalAt (s.write t_left t_right t_upkeep).2 Address.BIN_RIGHT =
        some (angleToPWM (s.command_values Joint.BIN) 0)) := by
  have hbin : ∀ (s : RobotInterface),
      signalAt (s.write t_left t_right t_upkeep).2 Address.BIN_LEFT =
        some (angleToPWM (s.command_values Joint.BIN) s.reading.bin_left_pos) ∧
      signalAt (s.write t_left t_right t_upkeep).2 Address.BIN_RIGHT =
        some (angleToPWM (s.command_values Joint.BIN) s.reading.bin_left_pos) := by
    intro s
    obtain ⟨-, -, hl, hr⟩ := signalAt_write_tread_bin s t_left t_right t_upkeep
    rw [hl, hr, twinAngleToPWM_same]
    exact ⟨rfl, rfl⟩
  obtain ⟨hl, hr⟩ := hbin s
  refine ⟨fun r hsample => ?_, fun hnone => ?_⟩
  · have hread : s.reading = r := by
      unfold RobotInterface.reading
      rw [hsample]
    rw [hread] at hl hr
    refine ⟨hl, hr, hl.trans hr.symm, fun x => ?_⟩
    obtain ⟨hl1, hr1⟩ := hbin { s with latest_arduino := some { r with bin_right_pos := x } }
    rw [hl, hr, hl1, hr1]
    exact ⟨rfl, rfl⟩
  · have hread : s.reading = ArduinoReading.zero := by
      unfold RobotInterface.reading
      rw [hnone]
    rw [hread] at hl hr
    exact ⟨hl, hr⟩

/-- Witness of C19 on `sampleInterface` after `read`: the bin command is 2 and the sample
reads bin_left_pos = 0.1 and bin_right_pos = 0.6; both bin signals are
`angleToPWM 2 0.1 = 1`, and they are still 1 when bin_right_pos is 100 instead. -/
theorem write_bin_signals_use_left_reading_witness :
    sampleInterface.read.latest_arduino = some sampleReading ∧
    sampleInterface.read.command_values Joint.BIN = 2 ∧
    sampleReading.bin_left_pos = 1 / 10 ∧
    signalAt (sampleInterface.read.write 1 2 3).2 Address.BIN_LEFT = some 1 ∧
    signalAt (sampleInterface.read.write 1 2 3).2 Address.BIN_RIGHT = some 1 ∧
    signalAt ((RobotInterface.write
        { sampleInterface.read with
          latest_arduino := some { sampleReading with bin_right_pos := 100 } }
        1 2 3).2) Address.BIN_LEFT = some 1 := by
  have hsample : sampleInterface.read.latest_arduino = some sampleReading := rfl
  have hcmd : sampleInterface.read.command_values Joint.BIN = 2 := rfl
  have hleft : sampleReading.bin_left_pos = 1 / 10 := rfl
  have hsig : angleToPWM 2 (1 / 10) = 1 := by
    unfold angleToPWM
    norm_num [abs_of_pos]
  obtain ⟨hl, hr, -, hx⟩ :=
    (write_bin_signals_use_left_reading sampleInterface.read 1 2 3).1 sampleReading hsample
  rw [hcmd, hleft, hsig] at hl hr
  refine ⟨hsample, hcmd, hleft, hl, hr, ?_⟩
  rw [(hx 100).1, hl]

/-- C20: the tread and bin signals of `write` do not depend on the mode flag: from the
same commands, telemetry sample, drivebase memo, time of the last update and clock
readings, `write` dispatches the same signals to TREAD_LEFT, TREAD_RIGHT, BIN_LEFT and
BIN_RIGHT on simulated and on real hardware; the tread signals are
`drivebaseVelocityToPWM` of the command and the memo, the bin signals the result of
`twinAngleToPWM`. -/
theorem write_tread_bin_mode_independent (s : RobotInterface) (fakes : Bool)
    (t_left t_right t_upkeep : ℚ) :
    signalAt ((RobotInterface.write { s with use_fake_values := fakes }
        t_left t_right t_upkeep).2) Address.TREAD_LEFT =
      some (drivebaseVelocityToPWM (s.command_values Joint.LEFT_TREAD) s.drivebase_v0.1
        (t_left - s.last_update)) ∧
    signalAt ((RobotInterface.write { s with use_fake_values := fakes }
        t_left t_right t_upkeep).2) Address.TREAD_RIGHT =
      some (drivebaseVelocityToPWM (s.command_values Joint.RIGHT_TREAD) s.drivebase_v0.2
        (t_right - s.last_update)) ∧
    signalAt ((RobotInterface.write { s with use_fake_values := fakes }
        t_left t_right t_upkeep).2) Address.BIN_LEFT =
      some (twinAngleToPWM (s.command_values Joint.BIN) s.reading.bin_left_pos
        s.reading.bin_left_pos).1 ∧
    signalAt ((RobotInterface.write { s with use_fake_values := fakes }
        t_left t_right t_upkeep).2) Address.BIN_RIGHT =
      some (twinAngleToPWM (s.command_values Joint.BIN) s.reading.bin_left_pos
        s.reading.bin_left_pos).2 ∧
    (∀ a : Address,
      a = Address.TREAD_LEFT ∨ a = Address.TREAD_RIGHT ∨ a = Address.BIN_LEFT ∨
        a = Address.BIN_RIGHT →
      signalAt ((RobotInterface.write { s with use_fake_values := true }
          t_left t_right t_upkeep).2) a =
        signalAt ((RobotInterface.write { s with use_fake_values := false }
          t_left t_right t_upkeep).2) a) := by
  have h := signalAt_write_tread_bin { s with use_fake_values := fakes }
    t_left t_right t_upkeep
  have ht := signalAt_write_tread_bin { s with use_fake_values := true }
    t_left t_right t_upkeep
  have hf := signalAt_write_tread_bin { s with use_fake_values := false }
    t_left t_right t_upkeep
  refine ⟨h.1, h.2.1, h.2.2.1, h.2.2.2, fun a ha => ?_⟩
  rcases ha with ha | ha | ha | ha <;> subst ha
  · exact ht.1.trans hf.1.symm
  · exact ht.2.1.trans hf.2.1.symm
  · exact ht.2.2.1.trans hf.2.2.1.symm
  · exact ht.2.2.2.trans hf.2.2.2.symm

/-! ### Frame of `write` and `clearCommands`, symmetry of the twin conversion -/

/-- Only the command array differs between a state and the state after `clearCommands`:
the joint state arrays are the same. -/
theorem clearCommands_joint_state (s : RobotInterface) :
    s.clearCommands.position_values = s.position_values ∧
    s.clearCommands.velocity_values = s.velocity_values ∧
    s.clearCommands.effort_values = s.effort_values := by
  rw [clearCommands_eq s]
  exact ⟨rfl, rfl, rfl⟩

/-- C21: on real hardware `write` changes nothing but the drivebase memo and the time of
the last update: the position, velocity, effort and command arrays after `write` are the
arrays before it, for every state and telemetry sample; and `clearCommands` leaves
position, velocity and effort unchanged. -/
theorem write_real_frame (s : RobotInterface) (t_left t_right t_upkeep : ℚ)
    (hreal : s.use_fake_values = false) :
    ((s.write t_left t_right t_upkeep).1.position_values = s.position_values ∧
      (s.write t_left t_right t_upkeep).1.velocity_values = s.velocity_values ∧
      (s.write t_left t_right t_upkeep).1.effort_values = s.effort_values ∧
      (s.write t_left t_right t_upkeep).1.command_values = s.command_values) ∧
    (s.write t_left t_right t_upkeep).1 =
      { s with
        last_update := (s.write t_left t_right t_upkeep).1.last_update
        drivebase_v0 := (s.write t_left t_right t_upkeep).1.drivebase_v0 } ∧
    (s.clearCommands.position_values = s.position_values ∧
      s.clearCommands.velocity_values = s.velocity_values ∧
      s.clearCommands.effort_values = s.effort_values) := by
  refine ⟨?_, ?_, clearCommands_joint_state s⟩
  · rw [write_real_state s t_left t_right t_upkeep hreal]
    exact ⟨rfl, rfl, rfl, rfl⟩
  · rw [write_real_state s t_left t_right t_upkeep hreal]

/-- Witness of C21 on `sampleInterface` after `read`: `write` keeps the projected
positions and the commands. -/
theorem write_real_frame_witness :
    sampleInterface.read.use_fake_values = false ∧
    (sampleInterface.read.write 1 2 3).1.position_values =
      sampleInterface.read.position_values ∧
    (sampleInterface.read.write 1 2 3).1.command_values =
      sampleInterface.read.command_values :=
  ⟨rfl, (write_real_frame sampleInterface.read 1 2 3 rfl).1.1,
    (write_real_frame sampleInterface.read 1 2 3 rfl).1.2.2.2⟩

/-- Exchanging the two readings exchanges the two outputs of the twin conversion. -/
theorem twinAngleToPWM_swap (desired a b : ℚ) :
    twinAngleToPWM desired b a =
      ((twinAngleToPWM desired a b).2, (twinAngleToPWM desired a b).1) := by
  have hmean : (b + a) / 2 = (a + b) / 2 := by ring
  have habs : |b - a| = |a - b| := abs_sub_comm b a
  unfold twinAngleToPWM
  simp only [hmean, habs, gt_iff_lt]
  by_cases h1 : 1 / 100 < |desired - (a + b) / 2|
  · by_cases h2 : 1 / 100 < |a - b|
    · have hne : a ≠ b := by
        intro h0
        rw [h0, sub_self, abs_zero] at h2
        norm_num at h2
      rcases lt_or_gt_of_ne hne with hlt | hgt
      · simp only [if_pos h1, if_pos h2, if_pos hlt, if_neg (not_lt.mpr hlt.le)]
      · simp only [if_pos h1, if_pos h2, if_pos hgt, if_neg (not_lt.mpr hgt.le)]
    · simp only [if_pos h1, if_neg h2]
  · simp only [if_neg h1]

/-- C22: `twinAngleToPWM` treats its two actuators symmetrically: if
`twinAngleToPWM(desired, a, b) = (x, y)` then `twinAngleToPWM(desired, b, a) = (y, x)`;
and when `|a - b| ≤ 0.01` both outputs equal `angleToPWM(desired, (a + b)/2)`. -/
theorem twinAngleToPWM_symmetric (desired a b : ℚ) :
    (∀ x y : ℚ, twinAngleToPWM desired a b = (x, y) →
      twinAngleToPWM desired b a = (y, x)) ∧
    (|a - b| ≤ 1 / 100 →
      (twinAngleToPWM desired a b).1 = angleToPWM desired ((a + b) / 2) ∧
      (twinAngleToPWM desired a b).2 = angleToPWM desired ((a + b) / 2)) := by
  refine ⟨fun x y h => ?_, fun hspread => ?_⟩
  · rw [twinAngleToPWM_swap, h]
  · unfold twinAngleToPWM angleToPWM
    simp only [gt_iff_lt, if_neg (not_lt.mpr hspread)]
    split_ifs <;> simp

/-- Witness of C22 at desired = 1, a = 0.5, b = 0: the outputs (0.9, 1) are exchanged
when the readings are; and at a = b = 0 both outputs are `angleToPWM 1 0`. -/
theorem twinAngleToPWM_symmetric_witness :
    twinAngleToPWM 1 (1 / 2) 0 = (9 / 10, 1) ∧
    twinAngleToPWM 1 0 (1 / 2) = (1, 9 / 10) ∧
    |(0 : ℚ) - 0| ≤ 1 / 100 ∧
    (twinAngleToPWM 1 0 0).1 = angleToPWM 1 ((0 + 0) / 2) ∧
    (twinAngleToPWM 1 0 0).2 = angleToPWM 1 ((0 + 0) / 2) := by
  have h : twinAngleToPWM 1 (1 / 2) 0 = (9 / 10, 1) := by
    unfold twinAngleToPWM
    norm_num [abs_of_pos]
  exact ⟨h, (twinAngleToPWM_symmetric 1 (1 / 2) 0).1 (9 / 10) 1 h, by norm_num,
    (twinAngleToPWM_symmetric 1 0 0).2 (by norm_num)⟩

end tfr_control
